import Mathlib

/-
  Verification of the csc-trading-cards-api resource-exchange core.

  The stateful TypeScript services are shallowly embedded as pure Lean
  functions over explicit table states:
    - a SQL table is a `List` of row structures;
    - an `UPDATE ... WHERE p` is a `List.map` that rewrites exactly the rows
      satisfying `p`; its driver `rowCount` is positive iff some row matched;
    - a transaction that throws and rolls back is a function returning
      `Except err result × State` where every error outcome carries the
      original (pre-transaction) state;
    - `Math.random()` draws are oracle parameters, timestamps are `Int`
      milliseconds passed in as `now`, and generated UUIDs are id parameters;
    - JS `number` database columns (REAL) are embedded as `Rat`, INTEGER
      columns as `Int`.
-/

namespace TradingCards

/-- One row of the `users` table (src/services/users.ts, sqlite schema). -/
structure UserRow where
  discordId : String
  username : String
  avatar : Option String
  packBalance : Int
deriving DecidableEq, Repr

/-- Embedding of `getPackBalance` (src/unnamed/part_005 lines 110-117):
`SELECT pack_balance FROM users WHERE discord_id = ?`, with the JS
`result.rows[0]?.pack_balance || 0` fallback for a missing row. -/
def getPackBalance (users : List UserRow) (uid : String) : Int :=
  match users.find? fun u => u.discordId = uid with
  | some u => u.packBalance
  | none => 0

/-- Embedding of `decrementPackBalance` (src/unnamed/part_005 lines 128-135):
the single conditional update
`UPDATE users SET pack_balance = pack_balance - 1
 WHERE discord_id = ? AND pack_balance > 0`,
returning `result.rowCount > 0`, i.e. whether some row matched the WHERE
clause and was decremented. -/
def decrementPackBalance (users : List UserRow) (uid : String) :
    Bool × List UserRow :=
  (users.any fun u => u.discordId = uid ∧ 0 < u.packBalance,
   users.map fun u =>
     if u.discordId = uid ∧ 0 < u.packBalance then
       { u with packBalance := u.packBalance - 1 }
     else u)

/-- A sequence of `n` debit calls for the same user, returning how many
succeeded together with the final table state. -/
def runDebits (users : List UserRow) (uid : String) : Nat → Nat × List UserRow
  | 0 => (0, users)
  | n + 1 =>
    let r := decrementPackBalance users uid
    let rest := runDebits r.2 uid n
    ((if r.1 then 1 else 0) + rest.1, rest.2)

theorem getPackBalance_cons (u : UserRow) (us : List UserRow) (uid : String) :
    getPackBalance (u :: us) uid
      = if u.discordId = uid then u.packBalance else getPackBalance us uid := by
  by_cases h : u.discordId = uid <;> simp [getPackBalance, List.find?_cons, h]

theorem decrement_snd_cons (u : UserRow) (us : List UserRow) (uid : String) :
    (decrementPackBalance (u :: us) uid).2
      = (if u.discordId = uid ∧ 0 < u.packBalance then
          { u with packBalance := u.packBalance - 1 } else u)
        :: (decrementPackBalance us uid).2 := by
  simp [decrementPackBalance]

theorem decrement_fst_cons (u : UserRow) (us : List UserRow) (uid : String) :
    (decrementPackBalance (u :: us) uid).1
      = (decide (u.discordId = uid ∧ 0 < u.packBalance)
         || (decrementPackBalance us uid).1) := by
  simp [decrementPackBalance]

theorem decrement_keys (users : List UserRow) (uid : String) :
    (decrementPackBalance users uid).2.map UserRow.discordId
      = users.map UserRow.discordId := by
  simp only [decrementPackBalance, List.map_map]
  refine List.map_congr_left fun u _ => ?_
  by_cases h : u.discordId = uid ∧ 0 < u.packBalance <;> simp [h]

theorem decrement_balance (users : List UserRow) (uid : String) :
    getPackBalance (decrementPackBalance users uid).2 uid
      = if 0 < getPackBalance users uid then getPackBalance users uid - 1
        else getPackBalance users uid := by
  induction users with
  | nil => simp [decrementPackBalance, getPackBalance]
  | cons u us ih =>
    rw [decrement_snd_cons]
    by_cases hid : u.discordId = uid
    · by_cases hb : 0 < u.packBalance
      · rw [if_pos ⟨hid, hb⟩, getPackBalance_cons, getPackBalance_cons]
        simp [hid, hb]
      · rw [if_neg (fun hc => hb hc.2), getPackBalance_cons,
          getPackBalance_cons]
        simp [hid, hb]
    · rw [if_neg (fun hc => hid hc.1), getPackBalance_cons,
        getPackBalance_cons, if_neg hid, if_neg hid]
      exact ih

theorem decrement_other (users : List UserRow) (uid uid2 : String)
    (h : uid2 ≠ uid) :
    getPackBalance (decrementPackBalance users uid).2 uid2
      = getPackBalance users uid2 := by
  induction users with
  | nil => rfl
  | cons u us ih =>
    rw [decrement_snd_cons]
    by_cases hc : u.discordId = uid ∧ 0 < u.packBalance
    · have hid2 : ¬ u.discordId = uid2 := by
        rw [hc.1]; exact fun he => h he.symm
      rw [if_pos hc, getPackBalance_cons, getPackBalance_cons]
      simp only []
      rw [if_neg hid2, if_neg hid2]
      exact ih
    · rw [if_neg hc, getPackBalance_cons, getPackBalance_cons]
      by_cases hid2 : u.discordId = uid2
      · rw [if_pos hid2, if_pos hid2]
      · rw [if_neg hid2, if_neg hid2]
        exact ih

theorem decrement_flag (users : List UserRow) (uid : String)
    (hkeys : (users.map UserRow.discordId).Nodup) :
    (decrementPackBalance users uid).1 = true
      ↔ 0 < getPackBalance users uid := by
  induction users with
  | nil => simp [decrementPackBalance, getPackBalance]
  | cons u us ih =>
    simp only [List.map_cons, List.nodup_cons] at hkeys
    rw [decrement_fst_cons, getPackBalance_cons]
    by_cases hid : u.discordId = uid
    · have htail : (decrementPackBalance us uid).1 = false := by
        simp only [decrementPackBalance, List.any_eq_false]
        intro v hv
        simp only [decide_eq_true_eq]
        rintro ⟨h1, _⟩
        exact hkeys.1 (by
          rw [hid, ← h1]
          exact List.mem_map_of_mem UserRow.discordId hv)
      by_cases hb : 0 < u.packBalance
      · simp [hid, hb]
      · simp [hid, hb, htail]
    · simp only [hid, false_and, decide_False, Bool.false_or, if_neg hid]
      exact ih hkeys.2

theorem decrement_unchanged (users : List UserRow) (uid : String)
    (h : (decrementPackBalance users uid).1 = false) :
    (decrementPackBalance users uid).2 = users := by
  simp only [decrementPackBalance, List.any_eq_false] at h
  simp only [decrementPackBalance]
  conv_rhs => rw [← List.map_id users]
  refine List.map_congr_left fun u hu => ?_
  have hc := h u hu
  rw [decide_eq_true_eq] at hc
  simp [hc]

theorem runDebits_succ (users : List UserRow) (uid : String) (n : Nat) :
    runDebits users uid (n + 1)
      = ((if (decrementPackBalance users uid).1 then 1 else 0)
           + (runDebits (decrementPackBalance users uid).2 uid n).1,
         (runDebits (decrementPackBalance users uid).2 uid n).2) := rfl

theorem runDebits_spec (uid : String) (n : Nat) :
    ∀ users : List UserRow, (users.map UserRow.discordId).Nodup →
      0 ≤ getPackBalance users uid →
      ((runDebits users uid n).1 : Int) ≤ getPackBalance users uid ∧
      getPackBalance (runDebits users uid n).2 uid
        = getPackBalance users uid - (runDebits users uid n).1 := by
  induction n with
  | zero =>
    intro users _ hB
    exact ⟨by simpa [runDebits] using hB, by simp [runDebits]⟩
  | succ n ih =>
    intro users hkeys hB
    have hkeys2 : ((decrementPackBalance users uid).2.map
        UserRow.discordId).Nodup := by
      rw [decrement_keys]; exact hkeys
    rw [runDebits_succ]
    by_cases hpos : 0 < getPackBalance users uid
    · have hflag : (decrementPackBalance users uid).1 = true :=
        (decrement_flag users uid hkeys).mpr hpos
      have hbal : getPackBalance (decrementPackBalance users uid).2 uid
          = getPackBalance users uid - 1 := by
        rw [decrement_balance, if_pos hpos]
      obtain ⟨h1, h2⟩ := ih (decrementPackBalance users uid).2 hkeys2
        (by rw [hbal]; omega)
      rw [hbal] at h1 h2
      constructor
      · simp only [hflag, if_true]
        push_cast
        omega
      · simp only [hflag, if_true]
        rw [h2]
        push_cast
        ring
    · have hflag : (decrementPackBalance users uid).1 = false := by
        cases hft : (decrementPackBalance users uid).1 with
        | false => rfl
        | true => exact absurd ((decrement_flag users uid hkeys).mp hft) hpos
      have hsame : (decrementPackBalance users uid).2 = users :=
        decrement_unchanged users uid hflag
      obtain ⟨h1, h2⟩ := ih users hkeys hB
      constructor
      · simp only [hflag, Bool.false_eq_true, if_false]
        rw [hsame]
        simpa using h1
      · simp only [hflag, Bool.false_eq_true, if_false]
        rw [hsame]
        simpa using h2

/-- Claim C1: for every user and starting balance B ≥ 0, the debit
`decrementPackBalance` subtracts exactly 1 iff the current balance is
strictly positive (applied as the single conditional update embedded in its
definition) and returns true exactly when the subtraction was applied; a
false return leaves the whole table unchanged, other users are never
affected, and any sequence of debits has at most B successes and never
drives the balance negative. -/
theorem decrementPackBalance_correct (users : List UserRow) (uid : String)
    (hkeys : (users.map UserRow.discordId).Nodup) :
    ((decrementPackBalance users uid).1 = true
        ↔ 0 < getPackBalance users uid) ∧
    getPackBalance (decrementPackBalance users uid).2 uid
      = (if 0 < getPackBalance users uid then getPackBalance users uid - 1
         else getPackBalance users uid) ∧
    ((decrementPackBalance users uid).1 = false
        → (decrementPackBalance users uid).2 = users) ∧
    (∀ uid2, uid2 ≠ uid →
        getPackBalance (decrementPackBalance users uid).2 uid2
          = getPackBalance users uid2) ∧
    (0 ≤ getPackBalance users uid → ∀ n : Nat,
        ((runDebits users uid n).1 : Int) ≤ getPackBalance users uid ∧
        getPackBalance (runDebits users uid n).2 uid
          = getPackBalance users uid - (runDebits users uid n).1 ∧
        0 ≤ getPackBalance (runDebits users uid n).2 uid) := by
  refine ⟨decrement_flag users uid hkeys, decrement_balance users uid,
    decrement_unchanged users uid, fun uid2 h => decrement_other users uid uid2 h,
    fun hB n => ?_⟩
  obtain ⟨h1, h2⟩ := runDebits_spec uid n users hkeys hB
  exact ⟨h1, h2, by omega⟩

/-- Witness for C1 at a concrete two-user table: the user with balance 2 can
debit, and five attempted debits succeed exactly twice, ending at balance 0. -/
theorem decrementPackBalance_correct_witness :
    (decrementPackBalance
        [⟨"u1", "alice", none, 2⟩, ⟨"u2", "bob", none, 7⟩] "u1").1 = true ∧
    ((runDebits [⟨"u1", "alice", none, 2⟩, ⟨"u2", "bob", none, 7⟩] "u1" 5).1
        : Int) ≤ 2 := by
  have h := decrementPackBalance_correct
    [⟨"u1", "alice", none, 2⟩, ⟨"u2", "bob", none, 7⟩] "u1" (by decide)
  exact ⟨h.1.mpr (by decide), (h.2.2.2.2 (by decide) 5).1⟩

/-- Embedding of `UPDATE t SET (f) WHERE p`: rewrites exactly the rows
satisfying `p`, leaving every other row untouched. -/
def sqlUpdate {α : Type} (p : α → Bool) (f : α → α) (l : List α) : List α :=
  l.map fun a => if p a then f a else a

theorem find?_sqlUpdate_pos {α : Type} (p : α → Bool) (f : α → α)
    (hpf : ∀ a, p a = true → p (f a) = true) (l : List α) :
    (sqlUpdate p f l).find? p = (l.find? p).map f := by
  induction l with
  | nil => rfl
  | cons a l ih =>
    cases hpa : p a with
    | true =>
      simp [sqlUpdate, List.find?_cons, hpa, hpf a hpa]
    | false =>
      simpa [sqlUpdate, List.find?_cons, hpa] using ih

theorem find?_sqlUpdate_disjoint {α : Type} (p q : α → Bool) (f : α → α)
    (hqf : ∀ a, q (f a) = q a) (hdisj : ∀ a, q a = true → p a = false)
    (l : List α) :
    (sqlUpdate p f l).find? q = l.find? q := by
  induction l with
  | nil => rfl
  | cons a l ih =>
    cases hqa : q a with
    | true =>
      simp [sqlUpdate, List.find?_cons, hdisj a hqa, hqa]
    | false =>
      cases hpa : p a with
      | true => simpa [sqlUpdate, List.find?_cons, hpa, hqf a, hqa] using ih
      | false => simpa [sqlUpdate, List.find?_cons, hpa, hqa] using ih

/-- Embedding of `findOrCreateUser` (src/unnamed/part_005 lines 13-71).
An existing row gets only `username` and `avatar` rewritten
(`UPDATE users SET username = ?, avatar = ? WHERE discord_id = ?`); a missing
row is inserted with `initialPackBalance = 10`.  The daily / early-arrival
gift granting the source performs afterwards writes only to the `gifts`
table and never touches `users`, so it is outside this embedding; the
returned `created_at` / `updated_at` timestamps are likewise omitted. -/
def findOrCreateUser (users : List UserRow) (discordId username : String)
    (avatar : Option String) : UserRow × List UserRow :=
  match users.find? fun u => u.discordId = discordId with
  | some row =>
    ({ discordId := row.discordId, username := username, avatar := avatar,
       packBalance := row.packBalance },
     sqlUpdate (fun u => u.discordId = discordId)
       (fun u => { u with username := username, avatar := avatar }) users)
  | none =>
    ({ discordId := discordId, username := username, avatar := avatar,
       packBalance := 10 },
     users ++ [{ discordId := discordId, username := username,
                 avatar := avatar, packBalance := 10 }])

/-- Claim C10: a discordId not yet in the users table is inserted with an
initial packBalance of 10 (not 0), and the data returned to the caller shows
that balance; for an existing discordId only username and avatar are
rewritten and the stored packBalance is untouched, as is every other row. -/
theorem findOrCreateUser_correct (users : List UserRow)
    (did un : String) (av : Option String) :
    (users.find? (fun u => u.discordId = did) = none →
       (findOrCreateUser users did un av).1.packBalance = 10 ∧
       (findOrCreateUser users did un av).2
         = users ++ [{ discordId := did, username := un, avatar := av,
                       packBalance := 10 }] ∧
       getPackBalance (findOrCreateUser users did un av).2 did = 10) ∧
    (∀ row, users.find? (fun u => u.discordId = did) = some row →
       (findOrCreateUser users did un av).1.packBalance = row.packBalance ∧
       (findOrCreateUser users did un av).2.find?
           (fun u => u.discordId = did)
         = some { row with username := un, avatar := av } ∧
       getPackBalance (findOrCreateUser users did un av).2 did
         = getPackBalance users did ∧
       (∀ did2, did2 ≠ did →
         (findOrCreateUser users did un av).2.find?
             (fun u => u.discordId = did2)
           = users.find? (fun u => u.discordId = did2))) := by
  constructor
  · intro hnone
    refine ⟨by simp [findOrCreateUser, hnone], by simp [findOrCreateUser, hnone], ?_⟩
    simp only [findOrCreateUser, hnone, getPackBalance]
    rw [List.find?_append, hnone]
    simp
  · intro row hfound
    have hupd : (findOrCreateUser users did un av).2
        = sqlUpdate (fun u => u.discordId = did)
            (fun u => { u with username := un, avatar := av }) users := by
      simp [findOrCreateUser, hfound]
    have hsame : (sqlUpdate (fun u => decide (u.discordId = did))
          (fun u => { u with username := un, avatar := av }) users).find?
          (fun u => decide (u.discordId = did))
        = (users.find? (fun u => decide (u.discordId = did))).map
            (fun u => { u with username := un, avatar := av }) :=
      find?_sqlUpdate_pos _ _ (fun a ha => by simpa using ha) users
    refine ⟨by simp [findOrCreateUser, hfound], ?_, ?_, ?_⟩
    · rw [hupd, hsame, hfound]
      rfl
    · rw [hupd]
      simp only [getPackBalance, hsame, hfound, Option.map_some]
      rfl
    · intro did2 hne
      rw [hupd]
      refine find?_sqlUpdate_disjoint _ _ _ (fun a => by simp) ?_ users
      intro a ha
      simp only [decide_eq_true_eq] at ha
      simp [ha, hne]

/-- Witness for C10: a fresh user lands with balance 10; an existing user's
balance 3 survives a login that changes their name. -/
theorem findOrCreateUser_correct_witness :
    (findOrCreateUser [⟨"a", "x", none, 3⟩] "b" "bob" none).1.packBalance = 10
    ∧ getPackBalance
        (findOrCreateUser [⟨"a", "x", none, 3⟩] "a" "alice" none).2 "a"
      = getPackBalance [(⟨"a", "x", none, 3⟩ : UserRow)] "a" := by
  have h1 := (findOrCreateUser_correct [⟨"a", "x", none, 3⟩] "b" "bob" none).1
    (by decide)
  have h2 := (findOrCreateUser_correct [⟨"a", "x", none, 3⟩] "a" "alice"
    none).2 ⟨"a", "x", none, 3⟩ (by decide)
  exact ⟨h1.1, h2.2.2.1⟩

/-- Embedding of the credit statement
`UPDATE users SET pack_balance = pack_balance + ? WHERE discord_id = ?`
(`addPacks` in src/unnamed/part_005 and the inline credits of the
redeem / gift-claim transactions). -/
def addPacks (users : List UserRow) (uid : String) (count : Int) :
    List UserRow :=
  sqlUpdate (fun u => u.discordId = uid)
    (fun u => { u with packBalance := u.packBalance + count }) users

theorem getPackBalance_addPacks (users : List UserRow) (uid : String)
    (count : Int) (hu : (users.find? fun u => u.discordId = uid).isSome) :
    getPackBalance (addPacks users uid count) uid
      = getPackBalance users uid + count := by
  obtain ⟨u, hu⟩ := Option.isSome_iff_exists.mp hu
  have h := find?_sqlUpdate_pos (fun x => decide (x.discordId = uid))
    (fun x => { x with packBalance := x.packBalance + count })
    (fun a ha => by simpa using ha) users
  simp only [getPackBalance, addPacks, h, hu]
  rfl

theorem getPackBalance_addPacks_other (users : List UserRow)
    (uid uid2 : String) (count : Int) (hne : uid2 ≠ uid) :
    getPackBalance (addPacks users uid count) uid2
      = getPackBalance users uid2 := by
  have h := find?_sqlUpdate_disjoint
    (fun x => decide (x.discordId = uid))
    (fun x => decide (x.discordId = uid2))
    (fun x => { x with packBalance := x.packBalance + count })
    (fun a => by simp) ?_ users
  · simp only [getPackBalance, addPacks, h]
  · intro a ha
    simp only [decide_eq_true_eq] at ha
    simp [ha, hne]

/-- One row of the `pack_codes` table (src/unnamed/part_008, sqlite schema);
`guaranteed_rarities` is a nullable JSON text column carried opaquely. -/
structure CodeRow where
  code : String
  createdBy : String
  packCount : Int
  cardsPerPack : Int
  guaranteedRarities : Option String
  redeemedBy : Option String
  redeemedAt : Option Int
  createdAt : Int
  expiresAt : Option Int
deriving DecidableEq, Repr

/-- The three distinct reasons `redeemPackCode` throws, each rolling back the
transaction. -/
inductive RedeemError where
  | invalidCode
  | alreadyRedeemed
  | expired
deriving DecidableEq, Repr

structure RedeemState where
  codes : List CodeRow
  users : List UserRow
deriving DecidableEq, Repr

structure RedeemResult where
  packsAdded : Int
  newPackBalance : Int
deriving DecidableEq, Repr

/-- Embedding of the JS expiry test
`packCodeRow.expires_at && new Date(packCodeRow.expires_at) < new Date()`. -/
def isExpired (expiresAt : Option Int) (now : Int) : Bool :=
  match expiresAt with
  | some e => e < now
  | none => false

/-- Embedding of `redeemPackCode` (src/unnamed/part_008 lines 216-290).
The locked select, the three guard throws, the balance credit, the
redeemed_by / redeemed_at stamp and the commit are one transaction; every
error outcome therefore carries the unchanged pre-transaction state
(the `rollback` of the source). -/
def redeemPackCode (s : RedeemState) (code uid : String) (now : Int) :
    Except RedeemError RedeemResult × RedeemState :=
  match s.codes.find? fun c => c.code = code with
  | none => (.error .invalidCode, s)
  | some row =>
    if row.redeemedBy.isSome then (.error .alreadyRedeemed, s)
    else if isExpired row.expiresAt now then (.error .expired, s)
    else
      let users2 := addPacks s.users uid row.packCount
      let codes2 := sqlUpdate (fun c => c.code = code)
        (fun c => { c with redeemedBy := some uid, redeemedAt := some now })
        s.codes
      (.ok { packsAdded := row.packCount,
             newPackBalance := getPackBalance users2 uid },
       { codes := codes2, users := users2 })

theorem redeem_eq_none (s : RedeemState) (code uid : String) (now : Int)
    (hfind : s.codes.find? (fun c => c.code = code) = none) :
    redeemPackCode s code uid now = (.error .invalidCode, s) := by
  simp [redeemPackCode, hfind]

theorem redeem_eq_redeemed (s : RedeemState) (code uid : String) (now : Int)
    (row : CodeRow) (hfind : s.codes.find? (fun c => c.code = code) = some row)
    (hred : row.redeemedBy.isSome = true) :
    redeemPackCode s code uid now = (.error .alreadyRedeemed, s) := by
  simp [redeemPackCode, hfind, hred]

theorem redeem_eq_expired (s : RedeemState) (code uid : String) (now : Int)
    (row : CodeRow) (hfind : s.codes.find? (fun c => c.code = code) = some row)
    (hred : row.redeemedBy = none) (hexp : isExpired row.expiresAt now = true) :
    redeemPackCode s code uid now = (.error .expired, s) := by
  simp [redeemPackCode, hfind, hred, hexp]

theorem redeem_eq_ok (s : RedeemState) (code uid : String) (now : Int)
    (row : CodeRow) (hfind : s.codes.find? (fun c => c.code = code) = some row)
    (hred : row.redeemedBy = none) (hexp : isExpired row.expiresAt now = false) :
    redeemPackCode s code uid now
      = (.ok { packsAdded := row.packCount,
               newPackBalance :=
                 getPackBalance (addPacks s.users uid row.packCount) uid },
         { codes := sqlUpdate (fun c => c.code = code)
             (fun c =>
               { c with redeemedBy := some uid, redeemedAt := some now })
             s.codes,
           users := addPacks s.users uid row.packCount }) := by
  simp [redeemPackCode, hfind, hred, hexp]

theorem redeem_codes_find (s : RedeemState) (code uid : String) (now : Int) :
    (sqlUpdate (fun c => c.code = code)
        (fun c => { c with redeemedBy := some uid, redeemedAt := some now })
        s.codes).find? (fun c => c.code = code)
      = (s.codes.find? (fun c => c.code = code)).map
          (fun c =>
            { c with redeemedBy := some uid, redeemedAt := some now }) :=
  find?_sqlUpdate_pos _ _ (fun a ha => by simpa using ha) s.codes

/-- Claim C2: `redeemPackCode` succeeds iff the code exists, is unredeemed
and not past expiry; on success it credits exactly the code's packCount to
the (existing) redeemer and stamps redeemedBy/redeemedAt within the same
transaction, touching no other code row and no other balance; on each
failure it reports the specific reason with the state unchanged, and after a
success any further redemption attempt on the same code fails with
`alreadyRedeemed` and changes nothing. -/
theorem redeemPackCode_correct (s : RedeemState) (code uid : String)
    (now : Int) (hu : (s.users.find? fun u => u.discordId = uid).isSome) :
    ((∃ r, (redeemPackCode s code uid now).1 = .ok r)
        ↔ (∃ row, s.codes.find? (fun c => c.code = code) = some row ∧
             row.redeemedBy = none ∧ isExpired row.expiresAt now = false)) ∧
    (∀ e, (redeemPackCode s code uid now).1 = .error e
        → (redeemPackCode s code uid now).2 = s) ∧
    (s.codes.find? (fun c => c.code = code) = none
        → (redeemPackCode s code uid now).1 = .error .invalidCode) ∧
    (∀ row u2, s.codes.find? (fun c => c.code = code) = some row
        → row.redeemedBy = some u2
        → (redeemPackCode s code uid now).1 = .error .alreadyRedeemed) ∧
    (∀ row, s.codes.find? (fun c => c.code = code) = some row
        → row.redeemedBy = none → isExpired row.expiresAt now = true
        → (redeemPackCode s code uid now).1 = .error .expired) ∧
    (∀ row, s.codes.find? (fun c => c.code = code) = some row
        → row.redeemedBy = none → isExpired row.expiresAt now = false →
       (redeemPackCode s code uid now).1
         = .ok { packsAdded := row.packCount,
                 newPackBalance :=
                   getPackBalance s.users uid + row.packCount } ∧
       getPackBalance (redeemPackCode s code uid now).2.users uid
         = getPackBalance s.users uid + row.packCount ∧
       (redeemPackCode s code uid now).2.codes.find? (fun c => c.code = code)
         = some { row with redeemedBy := some uid, redeemedAt := some now } ∧
       (∀ code2, code2 ≠ code →
         (redeemPackCode s code uid now).2.codes.find?
             (fun c => c.code = code2)
           = s.codes.find? (fun c => c.code = code2)) ∧
       (∀ uid2, uid2 ≠ uid →
         getPackBalance (redeemPackCode s code uid now).2.users uid2
           = getPackBalance s.users uid2) ∧
       (∀ uid3 now3,
         redeemPackCode (redeemPackCode s code uid now).2 code uid3 now3
           = (.error .alreadyRedeemed, (redeemPackCode s code uid now).2))) := by
  refine ⟨?_, ?_, ?_, ?_, ?_, ?_⟩
  · constructor
    · rintro ⟨r, hr⟩
      cases hfind : s.codes.find? fun c => c.code = code with
      | none => rw [redeem_eq_none s code uid now hfind] at hr; cases hr
      | some row =>
        cases hred : row.redeemedBy with
        | some u2 =>
          rw [redeem_eq_redeemed s code uid now row hfind (by simp [hred])]
            at hr
          cases hr
        | none =>
          cases hexp : isExpired row.expiresAt now with
          | true =>
            rw [redeem_eq_expired s code uid now row hfind hred hexp] at hr
            cases hr
          | false => exact ⟨row, rfl, hred, hexp⟩
    · rintro ⟨row, hfind, hred, hexp⟩
      rw [redeem_eq_ok s code uid now row hfind hred hexp]
      exact ⟨_, rfl⟩
  · intro e he
    cases hfind : s.codes.find? fun c => c.code = code with
    | none => rw [redeem_eq_none s code uid now hfind]
    | some row =>
      cases hred : row.redeemedBy with
      | some u2 =>
        rw [redeem_eq_redeemed s code uid now row hfind (by simp [hred])]
      | none =>
        cases hexp : isExpired row.expiresAt now with
        | true => rw [redeem_eq_expired s code uid now row hfind hred hexp]
        | false =>
          rw [redeem_eq_ok s code uid now row hfind hred hexp] at he
          cases he
  · intro hfind
    rw [redeem_eq_none s code uid now hfind]
  · intro row u2 hfind hred
    rw [redeem_eq_redeemed s code uid now row hfind (by simp [hred])]
  · intro row hfind hred hexp
    rw [redeem_eq_expired s code uid now row hfind hred hexp]
  · intro row hfind hred hexp
    have hok := redeem_eq_ok s code uid now row hfind hred hexp
    have hbal := getPackBalance_addPacks s.users uid row.packCount hu
    refine ⟨?_, ?_, ?_, ?_, ?_, ?_⟩
    · rw [hok, hbal]
    · rw [hok]
      exact hbal
    · rw [hok, redeem_codes_find, hfind]
      rfl
    · intro code2 hne
      rw [hok]
      refine find?_sqlUpdate_disjoint _ _ _ (fun a => by simp) ?_ s.codes
      intro a ha
      simp only [decide_eq_true_eq] at ha
      simp [ha, hne]
    · intro uid2 hne
      rw [hok]
      exact getPackBalance_addPacks_other s.users uid uid2 row.packCount hne
    · intro uid3 now3
      have hfind2 : (redeemPackCode s code uid now).2.codes.find?
          (fun c => c.code = code)
          = some { row with redeemedBy := some uid, redeemedAt := some now } := by
        rw [hok, redeem_codes_find, hfind]
        rfl
      exact redeem_eq_redeemed _ code uid3 now3 _ hfind2 (by simp)

/-- Witness for C2: the admin code "c5" worth 5 packs is redeemed once by
user "u" (balance 1 becomes 6) and a second attempt by another user fails
with `alreadyRedeemed`, changing nothing. -/
theorem redeemPackCode_correct_witness :
    (redeemPackCode
        ⟨[⟨"c5", "adm", 5, 5, none, none, none, 0, none⟩],
         [⟨"u", "alice", none, 1⟩]⟩ "c5" "u" 100).1
      = .ok { packsAdded := 5, newPackBalance := 6 } ∧
    (redeemPackCode
        (redeemPackCode
          ⟨[⟨"c5", "adm", 5, 5, none, none, none, 0, none⟩],
           [⟨"u", "alice", none, 1⟩]⟩ "c5" "u" 100).2 "c5" "v" 200).1
      = .error .alreadyRedeemed := by
  have h := redeemPackCode_correct
    ⟨[⟨"c5", "adm", 5, 5, none, none, none, 0, none⟩],
     [⟨"u", "alice", none, 1⟩]⟩ "c5" "u" 100 (by decide)
  have h6 := h.2.2.2.2.2 ⟨"c5", "adm", 5, 5, none, none, none, 0, none⟩
    (by decide) (by decide) (by decide)
  refine ⟨by rw [h6.1]; rfl, ?_⟩
  rw [(h6.2.2.2.2.2 "v" 200)]

theorem find?_sqlUpdate {α : Type} (p q : α → Bool) (f : α → α)
    (hqf : ∀ a, q (f a) = q a) (l : List α) :
    (sqlUpdate p f l).find? q
      = (l.find? q).map (fun a => if p a then f a else a) := by
  induction l with
  | nil => rfl
  | cons a l ih =>
    cases hqa : q a with
    | true =>
      cases hpa : p a with
      | true => simp [sqlUpdate, List.find?_cons, hpa, hqf a, hqa]
      | false => simp [sqlUpdate, List.find?_cons, hpa, hqa]
    | false =>
      cases hpa : p a with
      | true => simpa [sqlUpdate, List.find?_cons, hpa, hqf a, hqa] using ih
      | false => simpa [sqlUpdate, List.find?_cons, hpa, hqa] using ih

theorem find?_key_of_nodup {α : Type} (key : α → String) (l : List α)
    (hkeys : (l.map key).Nodup) (a : α) (ha : a ∈ l) :
    l.find? (fun x => key x = key a) = some a := by
  induction l with
  | nil => cases ha
  | cons b l ih =>
    simp only [List.map_cons, List.nodup_cons] at hkeys
    rcases List.mem_cons.mp ha with rfl | hmem
    · simp [List.find?_cons]
    · have hne : key b ≠ key a := fun he =>
        hkeys.1 (he ▸ List.mem_map_of_mem key hmem)
      have hd : (decide (key b = key a)) = false := by simpa using hne
      simp only [List.find?_cons, hd]
      exact ih hkeys.2 hmem

/-- One row of the `gifts` table (src/unnamed/part_008, sqlite schema);
`discord_user_id` is always populated by both creation paths. -/
structure GiftRow where
  id : String
  discordUserId : String
  name : String
  packCount : Int
  claimedAt : Option Int
  expiresAt : Option Int
  createdAt : Int
deriving DecidableEq, Repr

structure GiftState where
  gifts : List GiftRow
  users : List UserRow
deriving DecidableEq, Repr

structure ClaimAllResult where
  totalPacks : Int
  giftsClaimed : Nat
  newPackBalance : Int
deriving DecidableEq, Repr

/-- Embedding of the claim-all SELECT condition
`discord_user_id = ? AND claimed_at IS NULL
 AND (expires_at IS NULL OR expires_at > datetime('now'))`. -/
def giftEligible (uid : String) (now : Int) (g : GiftRow) : Bool :=
  decide (g.discordUserId = uid) && decide (g.claimedAt = none) &&
    (match g.expiresAt with
     | none => true
     | some e => decide (now < e))

/-- Embedding of `claimAllGifts` (src/unnamed/part_008 lines 444-507): select
the eligible gifts, return a zero result (after rolling back) when there are
none, otherwise sum the payouts with the source's `reduce`, stamp each
selected gift id claimed, and credit the sum with one balance update — all
one transaction. -/
def claimAllGifts (s : GiftState) (uid : String) (now : Int) :
    ClaimAllResult × GiftState :=
  let eligible := s.gifts.filter (giftEligible uid now)
  if eligible.isEmpty then
    ({ totalPacks := 0, giftsClaimed := 0,
       newPackBalance := getPackBalance s.users uid }, s)
  else
    let totalPacks := eligible.foldl (fun sum g => sum + g.packCount) 0
    let giftIds := eligible.map GiftRow.id
    let gifts2 := giftIds.foldl (fun gs gid =>
      sqlUpdate (fun g => g.id = gid)
        (fun g => { g with claimedAt := some now }) gs) s.gifts
    let users2 := addPacks s.users uid totalPacks
    ({ totalPacks := totalPacks, giftsClaimed := giftIds.length,
       newPackBalance := getPackBalance users2 uid },
     { gifts := gifts2, users := users2 })

theorem foldl_add_packCount (l : List GiftRow) (a : Int) :
    l.foldl (fun sum g => sum + g.packCount) a
      = a + (l.map GiftRow.packCount).sum := by
  induction l generalizing a with
  | nil => simp
  | cons g l ih =>
    simp only [List.foldl_cons, List.map_cons, List.sum_cons, ih]
    ring

theorem claim_fold_eq (now : Int) (gids : List String) :
    ∀ gs : List GiftRow,
      gids.foldl (fun gs gid =>
        sqlUpdate (fun g => g.id = gid)
          (fun g => { g with claimedAt := some now }) gs) gs
      = sqlUpdate (fun g => g.id ∈ gids)
          (fun g => { g with claimedAt := some now }) gs := by
  induction gids with
  | nil =>
    intro gs
    simp only [List.foldl_nil, sqlUpdate]
    conv_lhs => rw [← List.map_id gs]
    refine List.map_congr_left fun g _ => ?_
    simp
  | cons gid gids ih =>
    intro gs
    rw [List.foldl_cons, ih]
    simp only [sqlUpdate, List.map_map]
    refine List.map_congr_left fun g _ => ?_
    simp only [Function.comp_apply]
    by_cases h1 : g.id = gid
    · by_cases h2 : g.id ∈ gids <;>
        simp [h1, h2]
    · by_cases h2 : g.id ∈ gids <;>
        simp [h1, h2]

/-- Claim C5: `claimAllGifts` with no unclaimed, unexpired gift for the
recipient returns totalPacks = 0, giftsClaimed = 0 and an unchanged state;
otherwise it stamps exactly the eligible gifts claimed, credits the
recipient once with the sum of their pack counts, reports giftsClaimed as
the number stamped, and leaves every expired or already-claimed gift row
untouched. -/
theorem claimAllGifts_correct (s : GiftState) (uid : String) (now : Int)
    (hids : (s.gifts.map GiftRow.id).Nodup)
    (hu : (s.users.find? fun u => u.discordId = uid).isSome) :
    (s.gifts.filter (giftEligible uid now) = [] →
       claimAllGifts s uid now
         = ({ totalPacks := 0, giftsClaimed := 0,
              newPackBalance := getPackBalance s.users uid }, s)) ∧
    (s.gifts.filter (giftEligible uid now) ≠ [] →
       (claimAllGifts s uid now).1.totalPacks
         = ((s.gifts.filter (giftEligible uid now)).map GiftRow.packCount).sum ∧
       (claimAllGifts s uid now).1.giftsClaimed
         = (s.gifts.filter (giftEligible uid now)).length ∧
       getPackBalance (claimAllGifts s uid now).2.users uid
         = getPackBalance s.users uid
           + ((s.gifts.filter (giftEligible uid now)).map GiftRow.packCount).sum ∧
       (claimAllGifts s uid now).1.newPackBalance
         = getPackBalance (claimAllGifts s uid now).2.users uid ∧
       (∀ uid2, uid2 ≠ uid →
         getPackBalance (claimAllGifts s uid now).2.users uid2
           = getPackBalance s.users uid2) ∧
       (∀ g ∈ s.gifts, giftEligible uid now g = true →
         (claimAllGifts s uid now).2.gifts.find? (fun x => x.id = g.id)
           = some { g with claimedAt := some now }) ∧
       (∀ g ∈ s.gifts, giftEligible uid now g = false →
         (claimAllGifts s uid now).2.gifts.find? (fun x => x.id = g.id)
           = some g)) := by
  constructor
  · intro hempty
    simp [claimAllGifts, hempty]
  · intro hne
    have hisEmpty : (s.gifts.filter (giftEligible uid now)).isEmpty = false := by
      cases hf : s.gifts.filter (giftEligible uid now) with
      | nil => exact absurd hf hne
      | cons a l => rfl
    have hstamp : (claimAllGifts s uid now).2.gifts
        = sqlUpdate
            (fun g => g.id ∈ (s.gifts.filter (giftEligible uid now)).map GiftRow.id)
            (fun g => { g with claimedAt := some now }) s.gifts := by
      simp only [claimAllGifts, hisEmpty, if_neg Bool.false_ne_true]
      exact claim_fold_eq now _ s.gifts
    have husers : (claimAllGifts s uid now).2.users
        = addPacks s.users uid
            (((s.gifts.filter (giftEligible uid now)).map GiftRow.packCount).sum) := by
      simp only [claimAllGifts, hisEmpty, if_neg Bool.false_ne_true]
      rw [foldl_add_packCount]
      simp
    refine ⟨?_, ?_, ?_, ?_, ?_, ?_, ?_⟩
    · simp only [claimAllGifts, hisEmpty, if_neg Bool.false_ne_true]
      rw [foldl_add_packCount]
      simp
    · simp only [claimAllGifts, hisEmpty, if_neg Bool.false_ne_true]
      exact List.length_map _ _
    · rw [husers]
      exact getPackBalance_addPacks s.users uid _ hu
    · rw [husers]
      simp only [claimAllGifts, hisEmpty, if_neg Bool.false_ne_true]
      rw [foldl_add_packCount]
      simp
    · intro uid2 hne2
      rw [husers]
      exact getPackBalance_addPacks_other s.users uid uid2 _ hne2
    · intro g hg helig
      rw [hstamp]
      have hfind := find?_key_of_nodup GiftRow.id s.gifts hids g hg
      have h := find?_sqlUpdate
        (fun x => decide (x.id ∈ (s.gifts.filter (giftEligible uid now)).map GiftRow.id))
        (fun x => decide (x.id = g.id))
        (fun x => { x with claimedAt := some now })
        (fun a => by simp) s.gifts
      rw [h, hfind]
      have hmem : g.id ∈ (s.gifts.filter (giftEligible uid now)).map GiftRow.id :=
        List.mem_map_of_mem GiftRow.id (List.mem_filter.mpr ⟨hg, helig⟩)
      simp [hmem]
    · intro g hg helig
      rw [hstamp]
      have hfind := find?_key_of_nodup GiftRow.id s.gifts hids g hg
      have h := find?_sqlUpdate
        (fun x => decide (x.id ∈ (s.gifts.filter (giftEligible uid now)).map GiftRow.id))
        (fun x => decide (x.id = g.id))
        (fun x => { x with claimedAt := some now })
        (fun a => by simp) s.gifts
      rw [h, hfind]
      have hnotmem : g.id ∉ (s.gifts.filter (giftEligible uid now)).map GiftRow.id := by
        intro hmem
        obtain ⟨g2, hg2, hid2⟩ := List.mem_map.mp hmem
        have hg2mem := (List.mem_filter.mp hg2).1
        have hg2elig := (List.mem_filter.mp hg2).2
        have : g2 = g := by
          have h1 := find?_key_of_nodup GiftRow.id s.gifts hids g2 hg2mem
          have h2 := find?_key_of_nodup GiftRow.id s.gifts hids g hg
          rw [hid2] at h1
          rw [h1] at h2
          exact Option.some.inj h2
        rw [this] at hg2elig
        rw [hg2elig] at helig
        cases helig
      simp [hnotmem]

/-- Witness for C5, the spec scenario: three unclaimed gifts of sizes
2, 3, 5 plus one expired gift of 100 credit exactly 10 packs, report
giftsClaimed = 3, and the expired gift row keeps claimedAt = none. -/
theorem claimAllGifts_correct_witness :
    (claimAllGifts
        ⟨[⟨"g1", "u", "a", 2, none, none, 0⟩,
          ⟨"g2", "u", "b", 3, none, none, 0⟩,
          ⟨"g3", "u", "c", 5, none, none, 0⟩,
          ⟨"g4", "u", "d", 100, none, some 50, 0⟩],
         [⟨"u", "alice", none, 0⟩]⟩ "u" 100).1.totalPacks = 10 ∧
    (claimAllGifts
        ⟨[⟨"g1", "u", "a", 2, none, none, 0⟩,
          ⟨"g2", "u", "b", 3, none, none, 0⟩,
          ⟨"g3", "u", "c", 5, none, none, 0⟩,
          ⟨"g4", "u", "d", 100, none, some 50, 0⟩],
         [⟨"u", "alice", none, 0⟩]⟩ "u" 100).1.giftsClaimed = 3 ∧
    getPackBalance (claimAllGifts
        ⟨[⟨"g1", "u", "a", 2, none, none, 0⟩,
          ⟨"g2", "u", "b", 3, none, none, 0⟩,
          ⟨"g3", "u", "c", 5, none, none, 0⟩,
          ⟨"g4", "u", "d", 100, none, some 50, 0⟩],
         [⟨"u", "alice", none, 0⟩]⟩ "u" 100).2.users "u" = 10 ∧
    (claimAllGifts
        ⟨[⟨"g1", "u", "a", 2, none, none, 0⟩,
          ⟨"g2", "u", "b", 3, none, none, 0⟩,
          ⟨"g3", "u", "c", 5, none, none, 0⟩,
          ⟨"g4", "u", "d", 100, none, some 50, 0⟩],
         [⟨"u", "alice", none, 0⟩]⟩ "u" 100).2.gifts.find?
        (fun x => x.id = "g4")
      = some ⟨"g4", "u", "d", 100, none, some 50, 0⟩ := by
  have h := claimAllGifts_correct
    ⟨[⟨"g1", "u", "a", 2, none, none, 0⟩,
      ⟨"g2", "u", "b", 3, none, none, 0⟩,
      ⟨"g3", "u", "c", 5, none, none, 0⟩,
      ⟨"g4", "u", "d", 100, none, some 50, 0⟩],
     [⟨"u", "alice", none, 0⟩]⟩ "u" 100 (by decide) (by decide)
  have h2 := h.2 (by decide)
  refine ⟨?_, ?_, ?_, ?_⟩
  · rw [h2.1]; decide
  · rw [h2.2.1]; decide
  · rw [h2.2.2.1]; decide
  · exact h2.2.2.2.2.2.2 ⟨"g4", "u", "d", 100, none, some 50, 0⟩
      (by decide) (by decide)

/-- The five rarity tiers, in the object-key declaration order of
`RARITY_WEIGHTS` (src/src/types/index.ts). -/
inductive CardRarity where
  | normal
  | foil
  | holo
  | gold
  | prismatic
deriving DecidableEq, Repr

/-- Embedding of the `RARITY_WEIGHTS` configuration record
(src/src/types/index.ts lines 106-112) as the ordered entry list that
`Object.entries` / `Object.values` yield. -/
def RARITY_WEIGHTS : List (CardRarity × Rat) :=
  [(.normal, 69.5), (.foil, 20), (.holo, 8), (.gold, 2), (.prismatic, 0.5)]

/-- The configured weight of one tier, looked up in `RARITY_WEIGHTS`. -/
def rarityWeight (c : CardRarity) : Rat :=
  ((RARITY_WEIGHTS.find? fun p => p.1 = c).map Prod.snd).getD 0

/-- Embedding of
`Object.values(RARITY_WEIGHTS).reduce((a, b) => a + b, 0)`. -/
def totalWeight : Rat :=
  RARITY_WEIGHTS.foldl (fun a p => a + p.2) 0

/-- The subtract-and-test loop of `rollRarity`: walk the weight entries in
declaration order, subtracting each weight, and return the tier at which the
remainder first drops to ≤ 0. -/
def rollLoop : Rat → List (CardRarity × Rat) → CardRarity
  | _, [] => .normal
  | r, (rar, w) :: rest => if r - w ≤ 0 then rar else rollLoop (r - w) rest

/-- Embedding of `rollRarity` (src/unnamed/part_009 lines 582-594) as a
function of the uniform draw `r = Math.random() * totalWeight`; the final
`return 'normal'` is the `[]` fallback of `rollLoop`. -/
def rollRarity (r : Rat) : CardRarity :=
  rollLoop r RARITY_WEIGHTS

/-- Claim C8: the configured weights are normal 69.5, foil 20, holo 8,
gold 2, prismatic 0.5 summing to 100; for every draw r in [0, totalWeight)
the loop returns the tier at which the running remainder first becomes ≤ 0
(equivalently the first tier whose cumulative weight reaches r), and the
returned tier never has configured weight 0. -/
theorem rollRarity_correct (r : Rat) (h0 : 0 ≤ r) (h1 : r < totalWeight) :
    totalWeight = 100 ∧
    rollRarity r
      = (if r ≤ 69.5 then CardRarity.normal
         else if r ≤ 89.5 then CardRarity.foil
         else if r ≤ 97.5 then CardRarity.holo
         else if r ≤ 99.5 then CardRarity.gold
         else CardRarity.prismatic) ∧
    rarityWeight (rollRarity r) ≠ 0 := by
  have htot : totalWeight = 100 := by
    norm_num [totalWeight, RARITY_WEIGHTS]
  rw [htot] at h1
  have heq : rollRarity r
      = (if r ≤ 69.5 then CardRarity.normal
         else if r ≤ 89.5 then CardRarity.foil
         else if r ≤ 97.5 then CardRarity.holo
         else if r ≤ 99.5 then CardRarity.gold
         else CardRarity.prismatic) := by
    simp only [rollRarity, RARITY_WEIGHTS, rollLoop]
    split_ifs <;> first
      | rfl
      | (exfalso; linarith)
  refine ⟨htot, heq, ?_⟩
  rw [heq]
  split_ifs
  · rw [show rarityWeight CardRarity.normal = (69.5 : Rat) from rfl]
    norm_num
  · rw [show rarityWeight CardRarity.foil = (20 : Rat) from rfl]
    norm_num
  · rw [show rarityWeight CardRarity.holo = (8 : Rat) from rfl]
    norm_num
  · rw [show rarityWeight CardRarity.gold = (2 : Rat) from rfl]
    norm_num
  · rw [show rarityWeight CardRarity.prismatic = (0.5 : Rat) from rfl]
    norm_num

/-- Witness for C8 at the concrete draw r = 3: the weights sum to 100 and
the drawn tier (normal) has nonzero configured weight. -/
theorem rollRarity_correct_witness :
    totalWeight = 100 ∧ rarityWeight (rollRarity 3) ≠ 0 := by
  have h := rollRarity_correct 3 (by norm_num)
    (by norm_num [totalWeight, RARITY_WEIGHTS])
  exact ⟨h.1, h.2.2⟩

/-- The match-type / stat-era discriminator (src/src/types/index.ts). -/
inductive StatType where
  | Regulation
  | Combine
deriving DecidableEq, Repr

/-- The statistical record a provider entry carries
(`PlayerStats`, src/src/types/index.ts). -/
structure PlayerStats where
  rating : Rat
  kr : Rat
  adr : Rat
  kast : Rat
  impact : Rat
  gameCount : Int
  kills : Int
  deaths : Int
  assists : Int
deriving DecidableEq, Repr

/-- A provider player (`PlayerWithStats`): the optional-chaining lookups
`player.team?.name`, `player.team?.franchise?.name`,
`player.team?.franchise?.prefix` are embedded as pre-resolved options. -/
structure Player where
  id : String
  name : String
  avatarUrl : String
  tierName : String
  teamName : Option String
  franchiseName : Option String
  franchisePrefix : Option String
  mmr : Option Int
  stats : Option PlayerStats
deriving DecidableEq, Repr

/-- One row of the `card_snapshots` table. -/
structure SnapshotRow where
  id : String
  cscPlayerId : String
  playerName : String
  avatarUrl : String
  season : Int
  statType : StatType
  tier : String
  teamName : Option String
  franchiseName : Option String
  franchisePrefix : Option String
  mmr : Option Int
  rating : Rat
  kr : Rat
  adr : Rat
  kast : Rat
  impact : Rat
  gameCount : Int
  kills : Int
  deaths : Int
  assists : Int
  createdAt : Int
deriving DecidableEq, Repr

/-- JS `s || null` for a nullable string: the empty string is falsy and
collapses to null. -/
def jsStrOrNull (s : Option String) : Option String :=
  match s with
  | some v => if v = "" then none else some v
  | none => none

/-- JS `n || null` for a nullable integer: 0 is falsy and collapses to
null. -/
def jsIntOrNull (i : Option Int) : Option Int :=
  match i with
  | some v => if v = 0 then none else some v
  | none => none

/-- The natural-key WHERE clause of `findOrCreateSnapshot`
(src/unnamed/part_009 lines 1065-1069):
`csc_player_id = ? AND season = ? AND stat_type = ? AND avatar_url = ?`. -/
def snapKey (pid : String) (season : Int) (st : StatType) (avatar : String)
    (row : SnapshotRow) : Bool :=
  decide (row.cscPlayerId = pid) && decide (row.season = season) &&
    decide (row.statType = st) && decide (row.avatarUrl = avatar)

/-- The natural key of a stored snapshot row. -/
def snapKeyOf (row : SnapshotRow) : String × Int × StatType × String :=
  (row.cscPlayerId, row.season, row.statType, row.avatarUrl)

/-- Embedding of `findOrCreateSnapshot` (src/unnamed/part_009 lines
1054-1159): look the natural key up; when present return the stored row and
insert nothing; otherwise insert a new row frozen from the provider entry
(with the JS `|| null` collapses on team fields and mmr) and return it.
`freshId` stands for the generated uuid, `now` for the insert timestamp.
A missing `player.stats` (the source's `player.stats!`) makes the NOT NULL
insert fail: that is the `none` outcome. -/
def findOrCreateSnapshot (snapshots : List SnapshotRow) (player : Player)
    (season : Int) (statType : StatType) (freshId : String) (now : Int) :
    Option (SnapshotRow × List SnapshotRow) :=
  match snapshots.find? (snapKey player.id season statType player.avatarUrl) with
  | some row => some (row, snapshots)
  | none =>
    match player.stats with
    | none => none
    | some stats =>
      let row : SnapshotRow :=
        { id := freshId, cscPlayerId := player.id, playerName := player.name,
          avatarUrl := player.avatarUrl, season := season,
          statType := statType, tier := player.tierName,
          teamName := jsStrOrNull player.teamName,
          franchiseName := jsStrOrNull player.franchiseName,
          franchisePrefix := jsStrOrNull player.franchisePrefix,
          mmr := jsIntOrNull player.mmr,
          rating := stats.rating, kr := stats.kr, adr := stats.adr,
          kast := stats.kast, impact := stats.impact,
          gameCount := stats.gameCount, kills := stats.kills,
          deaths := stats.deaths, assists := stats.assists,
          createdAt := now }
      some (row, snapshots ++ [row])

/-- Claim C9: resolving the same natural key (player id, season, stat type,
avatar signature) repeatedly yields one immutable template: when the key
already exists nothing is inserted and the stored row is returned, the
no-duplicate-key invariant of the table is preserved by every call, and any
later resolution of the same key returns exactly the row (hence identical
statistical fields) produced by the first call, leaving the table
unchanged. -/
theorem findOrCreateSnapshot_correct (snapshots : List SnapshotRow)
    (player : Player) (season : Int) (st : StatType) (fid : String)
    (now : Int) (hkeys : (snapshots.map snapKeyOf).Nodup) :
    (∀ row,
       snapshots.find? (snapKey player.id season st player.avatarUrl)
         = some row →
       findOrCreateSnapshot snapshots player season st fid now
         = some (row, snapshots)) ∧
    (∀ r snaps2,
       findOrCreateSnapshot snapshots player season st fid now
         = some (r, snaps2) →
       (snaps2.map snapKeyOf).Nodup) ∧
    (∀ r snaps2,
       findOrCreateSnapshot snapshots player season st fid now
         = some (r, snaps2) →
       ∀ p2 fid2 now2, p2.id = player.id → p2.avatarUrl = player.avatarUrl →
         findOrCreateSnapshot snaps2 p2 season st fid2 now2
           = some (r, snaps2)) := by
  refine ⟨?_, ?_, ?_⟩
  · intro row hfind
    simp [findOrCreateSnapshot, hfind]
  · intro r snaps2 hres
    cases hfind : snapshots.find?
        (snapKey player.id season st player.avatarUrl) with
    | some row =>
      simp only [findOrCreateSnapshot, hfind, Option.some.injEq,
        Prod.mk.injEq] at hres
      rw [← hres.2]
      exact hkeys
    | none =>
      cases hstats : player.stats with
      | none => simp [findOrCreateSnapshot, hfind, hstats] at hres
      | some stats =>
        simp only [findOrCreateSnapshot, hfind, hstats, Option.some.injEq,
          Prod.mk.injEq] at hres
        rw [← hres.2, List.map_append, List.map_singleton]
        rw [List.nodup_append]
        refine ⟨hkeys, List.nodup_singleton _, ?_⟩
        intro k hk hk2
        simp only [List.mem_singleton] at hk2
        obtain ⟨x, hx, hxk⟩ := List.mem_map.mp hk
        have hnx := List.find?_eq_none.mp hfind x hx
        apply hnx
        rw [hk2] at hxk
        simp only [snapKeyOf, Prod.mk.injEq] at hxk
        simp [snapKey, hxk.1, hxk.2.1, hxk.2.2.1, hxk.2.2.2]
  · intro r snaps2 hres p2 fid2 now2 hpid havatar
    cases hfind : snapshots.find?
        (snapKey player.id season st player.avatarUrl) with
    | some row =>
      simp only [findOrCreateSnapshot, hfind, Option.some.injEq,
        Prod.mk.injEq] at hres
      have hfind2 : snaps2.find? (snapKey p2.id season st p2.avatarUrl)
          = some r := by
        rw [← hres.1, ← hres.2, hpid, havatar]
        exact hfind
      simp [findOrCreateSnapshot, hfind2]
    | none =>
      cases hstats : player.stats with
      | none => simp [findOrCreateSnapshot, hfind, hstats] at hres
      | some stats =>
        simp only [findOrCreateSnapshot, hfind, hstats, Option.some.injEq,
          Prod.mk.injEq] at hres
        have hfind2 : snaps2.find? (snapKey p2.id season st p2.avatarUrl)
            = some r := by
          rw [← hres.2, List.find?_append]
          have hnone2 : snapshots.find?
              (snapKey p2.id season st p2.avatarUrl) = none := by
            rw [hpid, havatar]; exact hfind
          rw [hnone2]
          simp only [Option.none_orElse, List.find?_cons, List.find?_nil]
          rw [← hres.1]
          simp [snapKey, hpid, havatar]
        simp [findOrCreateSnapshot, hfind2]

/-- The template row the example resolution freezes on first encounter. -/
def exampleSnapRow : SnapshotRow :=
  ⟨"s1", "p1", "n", "a", 17, .Regulation, "t", none, none, none, none,
   1, 1, 1, 1, 1, 3, 9, 8, 7, 1000⟩

/-- The provider player whose resolution creates `exampleSnapRow`. -/
def examplePlayer : Player :=
  ⟨"p1", "n", "a", "t", none, none, none, none,
   some ⟨1, 1, 1, 1, 1, 3, 9, 8, 7⟩⟩

/-- Witness for C9: a first resolution on an empty table creates the
template; a second resolution of the same key (different uuid, later clock)
returns the identical row and leaves the table unchanged. -/
theorem findOrCreateSnapshot_correct_witness :
    findOrCreateSnapshot [exampleSnapRow] examplePlayer 17 .Regulation
        "s2" 2000
      = some (exampleSnapRow, [exampleSnapRow]) := by
  exact (findOrCreateSnapshot_correct [] examplePlayer 17 .Regulation
    "s1" 1000 (by decide)).2.2 exampleSnapRow [exampleSnapRow] rfl
    examplePlayer "s2" 2000 rfl rfl

/-- One row of the `owned_cards` table. -/
structure CardRow where
  id : String
  discordUserId : String
  cardSnapshotId : String
  rarity : CardRarity
deriving DecidableEq, Repr

/-- The distinct throws of `tradeInDuplicates`, in source order. -/
inductive TradeInError where
  | wrongCount
  | duplicateCardIds
  | cardNotFound (cardId : String)
  | notYourCard (cardId : String)
  | needDuplicates
deriving DecidableEq, Repr

structure TradeInState where
  cards : List CardRow
  users : List UserRow
deriving DecidableEq, Repr

/-- The validation loop of `tradeInDuplicates` (src/unnamed/part_009 lines
894-922): for each requested id in order, the card must exist, belong to the
caller, and the caller must hold strictly more than one copy of its exact
(snapshot, rarity) pair — counted against the table before any deletion. -/
def validateTradeIns (cards : List CardRow) (uid : String) :
    List String → Option TradeInError
  | [] => none
  | cid :: rest =>
    match cards.find? fun c => c.id = cid with
    | none => some (.cardNotFound cid)
    | some card =>
      if card.discordUserId ≠ uid then some (.notYourCard cid)
      else if (cards.filter fun c =>
          c.discordUserId = uid ∧ c.cardSnapshotId = card.cardSnapshotId
            ∧ c.rarity = card.rarity).length ≤ 1 then
        some .needDuplicates
      else validateTradeIns cards uid rest

/-- The deletion loop of `tradeInDuplicates`:
`DELETE FROM owned_cards WHERE id = ? AND discord_user_id = ?` per id. -/
def deleteTradeIns (uid : String) :
    List String → List CardRow → List CardRow
  | [], cards => cards
  | cid :: rest, cards =>
    deleteTradeIns uid rest
      (cards.filter fun c => ¬(c.id = cid ∧ c.discordUserId = uid))

/-- Embedding of `tradeInDuplicates` (src/unnamed/part_009 lines 872-939):
the count and duplicate-id guards run before the transaction, the ownership
and duplicate-copy validation and the deletions run inside it, and any throw
rolls the whole batch back.  The `new Set(cardIds).size !== cardIds.length`
guard is the dedup-length test.  No balance credit appears anywhere in the
source function. -/
def tradeInDuplicates (s : TradeInState) (uid : String)
    (cardIds : List String) (requiredCount : Nat) :
    Except TradeInError Unit × TradeInState :=
  if cardIds.length ≠ requiredCount then (.error .wrongCount, s)
  else if cardIds.dedup.length ≠ cardIds.length then
    (.error .duplicateCardIds, s)
  else
    match validateTradeIns s.cards uid cardIds with
    | some e => (.error e, s)
    | none =>
      (.ok (), { cards := deleteTradeIns uid cardIds s.cards,
                 users := s.users })

theorem dedup_length_eq_iff (l : List String) :
    l.dedup.length = l.length ↔ l.Nodup := by
  constructor
  · intro h
    rw [← List.dedup_eq_self]
    exact (List.dedup_sublist l).eq_of_length h
  · intro h
    rw [h.dedup]

theorem validateTradeIns_none_iff (cards : List CardRow) (uid : String)
    (ids : List String) :
    validateTradeIns cards uid ids = none ↔
      ∀ cid ∈ ids, ∃ card,
        cards.find? (fun c => c.id = cid) = some card ∧
        card.discordUserId = uid ∧
        1 < (cards.filter fun c =>
              c.discordUserId = uid ∧ c.cardSnapshotId = card.cardSnapshotId
                ∧ c.rarity = card.rarity).length := by
  induction ids with
  | nil => simp [validateTradeIns]
  | cons cid rest ih =>
    cases hfind : cards.find? fun c => c.id = cid with
    | none =>
      simp only [validateTradeIns, hfind]
      constructor
      · intro h; cases h
      · intro h
        obtain ⟨card, hc, _⟩ := h cid (List.mem_cons_self cid rest)
        rw [hfind] at hc
        cases hc
    | some card =>
      by_cases howner : card.discordUserId = uid
      · by_cases hcount : (cards.filter fun c =>
            c.discordUserId = uid ∧ c.cardSnapshotId = card.cardSnapshotId
              ∧ c.rarity = card.rarity).length ≤ 1
        · simp only [validateTradeIns, hfind]
          rw [if_neg (not_not_intro howner), if_pos hcount]
          constructor
          · intro h; cases h
          · intro h
            obtain ⟨card2, hc2, _, hcount2⟩ :=
              h cid (List.mem_cons_self cid rest)
            rw [hfind] at hc2
            cases hc2
            omega
        · simp only [validateTradeIns, hfind]
          rw [if_neg (not_not_intro howner), if_neg hcount, ih]
          constructor
          · intro h cid2 hmem
            rcases List.mem_cons.mp hmem with rfl | hmem2
            · exact ⟨card, hfind, howner, by omega⟩
            · exact h cid2 hmem2
          · intro h cid2 hmem2
            exact h cid2 (List.mem_cons_of_mem _ hmem2)
      · simp only [validateTradeIns, hfind]
        rw [if_pos howner]
        constructor
        · intro h; cases h
        · intro h
          obtain ⟨card2, hc2, howner2, _⟩ :=
            h cid (List.mem_cons_self cid rest)
          rw [hfind] at hc2
          cases hc2
          exact absurd howner2 howner

theorem deleteTradeIns_eq (uid : String) (cardIds : List String) :
    ∀ cards : List CardRow,
      deleteTradeIns uid cardIds cards
        = cards.filter (fun c => ¬(c.id ∈ cardIds ∧ c.discordUserId = uid)) := by
  induction cardIds with
  | nil =>
    intro cards
    simp only [deleteTradeIns]
    conv_lhs => rw [← List.filter_true cards]
    refine List.filter_congr fun c _ => ?_
    simp
  | cons cid rest ih =>
    intro cards
    simp only [deleteTradeIns]
    rw [ih, List.filter_filter]
    refine List.filter_congr fun c _ => ?_
    by_cases h1 : c.discordUserId = uid <;> by_cases h2 : c.id = cid <;>
      by_cases h3 : c.id ∈ rest <;> simp [h1, h2, h3]

theorem tradeIn_eq_wrongCount (s : TradeInState) (uid : String)
    (cardIds : List String) (requiredCount : Nat)
    (h : cardIds.length ≠ requiredCount) :
    tradeInDuplicates s uid cardIds requiredCount
      = (.error .wrongCount, s) := by
  simp only [tradeInDuplicates]
  rw [if_pos h]

theorem tradeIn_eq_dup (s : TradeInState) (uid : String)
    (cardIds : List String) (requiredCount : Nat)
    (h1 : cardIds.length = requiredCount)
    (h2 : cardIds.dedup.length ≠ cardIds.length) :
    tradeInDuplicates s uid cardIds requiredCount
      = (.error .duplicateCardIds, s) := by
  simp only [tradeInDuplicates]
  rw [if_neg (not_not_intro h1), if_pos h2]

theorem tradeIn_eq_validate (s : TradeInState) (uid : String)
    (cardIds : List String) (requiredCount : Nat)
    (h1 : cardIds.length = requiredCount)
    (h2 : cardIds.dedup.length = cardIds.length) (e : TradeInError)
    (hv : validateTradeIns s.cards uid cardIds = some e) :
    tradeInDuplicates s uid cardIds requiredCount = (.error e, s) := by
  simp only [tradeInDuplicates]
  rw [if_neg (not_not_intro h1), if_neg (not_not_intro h2)]
  simp [hv]

theorem tradeIn_eq_ok (s : TradeInState) (uid : String)
    (cardIds : List String) (requiredCount : Nat)
    (h1 : cardIds.length = requiredCount)
    (h2 : cardIds.dedup.length = cardIds.length)
    (hv : validateTradeIns s.cards uid cardIds = none) :
    tradeInDuplicates s uid cardIds requiredCount
      = (.ok (), { cards := deleteTradeIns uid cardIds s.cards,
                   users := s.users }) := by
  simp only [tradeInDuplicates]
  rw [if_neg (not_not_intro h1), if_neg (not_not_intro h2)]
  simp [hv]

/-- Counterexample for C4 as stated: on a table where user "u" (balance 7)
owns two copies c1, c2 of the same (snapshot, rarity) pair, trading both in
(requiredCount 2) succeeds and deletes them, yet the balance stays 7 — no
pack is credited, contradicting the claimed balance of 7 + 1. -/
theorem tradeInDuplicates_no_credit :
    (tradeInDuplicates
        ⟨[⟨"c1", "u", "s", .normal⟩, ⟨"c2", "u", "s", .normal⟩],
         [⟨"u", "alice", none, 7⟩]⟩ "u" ["c1", "c2"] 2).1 = .ok () ∧
    (tradeInDuplicates
        ⟨[⟨"c1", "u", "s", .normal⟩, ⟨"c2", "u", "s", .normal⟩],
         [⟨"u", "alice", none, 7⟩]⟩ "u" ["c1", "c2"] 2).2.cards = [] ∧
    getPackBalance (tradeInDuplicates
        ⟨[⟨"c1", "u", "s", .normal⟩, ⟨"c2", "u", "s", .normal⟩],
         [⟨"u", "alice", none, 7⟩]⟩ "u" ["c1", "c2"] 2).2.users "u" = 7 ∧
    ¬ getPackBalance (tradeInDuplicates
        ⟨[⟨"c1", "u", "s", .normal⟩, ⟨"c2", "u", "s", .normal⟩],
         [⟨"u", "alice", none, 7⟩]⟩ "u" ["c1", "c2"] 2).2.users "u" = 7 + 1 := by
  refine ⟨rfl, rfl, ?_, ?_⟩ <;> decide

/-- Claim C4 (amended): `tradeInDuplicates` rejects with no state change on
wrong count, duplicate ids, a card that does not exist or belong to the
caller, or a card of which the caller holds at most one (snapshot, rarity)
copy (evaluated per card against the pre-deletion table); on success it
deletes exactly the named owned-card rows of the caller in one transaction —
but credits no pack: the users table is returned unchanged. -/
theorem tradeInDuplicates_spec (s : TradeInState) (uid : String)
    (cardIds : List String) (requiredCount : Nat) :
    (cardIds.length ≠ requiredCount →
       tradeInDuplicates s uid cardIds requiredCount
         = (.error .wrongCount, s)) ∧
    (cardIds.length = requiredCount → ¬ cardIds.Nodup →
       tradeInDuplicates s uid cardIds requiredCount
         = (.error .duplicateCardIds, s)) ∧
    (∀ e, (tradeInDuplicates s uid cardIds requiredCount).1 = .error e →
       (tradeInDuplicates s uid cardIds requiredCount).2 = s) ∧
    ((tradeInDuplicates s uid cardIds requiredCount).1 = .ok ()
       ↔ cardIds.length = requiredCount ∧ cardIds.Nodup ∧
         ∀ cid ∈ cardIds, ∃ card,
           s.cards.find? (fun c => c.id = cid) = some card ∧
           card.discordUserId = uid ∧
           1 < (s.cards.filter fun c =>
                 c.discordUserId = uid
                   ∧ c.cardSnapshotId = card.cardSnapshotId
                   ∧ c.rarity = card.rarity).length) ∧
    ((tradeInDuplicates s uid cardIds requiredCount).1 = .ok () →
       (tradeInDuplicates s uid cardIds requiredCount).2.cards
         = s.cards.filter
             (fun c => ¬(c.id ∈ cardIds ∧ c.discordUserId = uid)) ∧
       (tradeInDuplicates s uid cardIds requiredCount).2.users = s.users) := by
  by_cases h1 : cardIds.length = requiredCount
  · by_cases h2 : cardIds.dedup.length = cardIds.length
    · cases hv : validateTradeIns s.cards uid cardIds with
      | some e =>
        have heq := tradeIn_eq_validate s uid cardIds requiredCount h1 h2 e hv
        refine ⟨fun hc => absurd h1 hc, ?_, ?_, ?_, ?_⟩
        · intro _ hnodup
          exact absurd ((dedup_length_eq_iff cardIds).mp h2) hnodup
        · intro e2 _
          rw [heq]
        · rw [heq]
          constructor
          · intro hc; cases hc
          · rintro ⟨_, _, hall⟩
            rw [(validateTradeIns_none_iff s.cards uid cardIds).mpr hall]
              at hv
            cases hv
        · rw [heq]
          intro hc; cases hc
      | none =>
        have heq := tradeIn_eq_ok s uid cardIds requiredCount h1 h2 hv
        refine ⟨fun hc => absurd h1 hc, ?_, ?_, ?_, ?_⟩
        · intro _ hnodup
          exact absurd ((dedup_length_eq_iff cardIds).mp h2) hnodup
        · intro e2 he2
          rw [heq] at he2
          cases he2
        · rw [heq]
          simp only [true_iff]
          exact ⟨h1, (dedup_length_eq_iff cardIds).mp h2,
            (validateTradeIns_none_iff s.cards uid cardIds).mp hv⟩
        · intro _
          rw [heq]
          exact ⟨deleteTradeIns_eq uid cardIds s.cards, rfl⟩
    · have heq := tradeIn_eq_dup s uid cardIds requiredCount h1 h2
      refine ⟨fun hc => absurd h1 hc, fun _ _ => heq, ?_, ?_, ?_⟩
      · intro e2 _
        rw [heq]
      · rw [heq]
        constructor
        · intro hc; cases hc
        · rintro ⟨_, hnodup, _⟩
          exact absurd ((dedup_length_eq_iff cardIds).mpr hnodup) h2
      · rw [heq]
        intro hc; cases hc
  · have heq := tradeIn_eq_wrongCount s uid cardIds requiredCount h1
    refine ⟨fun _ => heq, fun hc => absurd hc h1, ?_, ?_, ?_⟩
    · intro e2 _
      rw [heq]
    · rw [heq]
      constructor
      · intro hc; cases hc
      · rintro ⟨hlen, _, _⟩
        exact absurd hlen h1
    · rw [heq]
      intro hc; cases hc

/-- Witness for the amended C4: the spec's duplicate rule — a user owning
one copy of card X and three copies of card Y cannot trade in X, and trading
in two of the three copies of Y leaves one copy. -/
theorem tradeInDuplicates_spec_witness :
    (tradeInDuplicates
        ⟨[⟨"x1", "u", "sx", .normal⟩, ⟨"y1", "u", "sy", .normal⟩,
          ⟨"y2", "u", "sy", .normal⟩, ⟨"y3", "u", "sy", .normal⟩],
         [⟨"u", "alice", none, 0⟩]⟩ "u" ["x1", "y1"] 2).1
      = .error .needDuplicates ∧
    (tradeInDuplicates
        ⟨[⟨"x1", "u", "sx", .normal⟩, ⟨"y1", "u", "sy", .normal⟩,
          ⟨"y2", "u", "sy", .normal⟩, ⟨"y3", "u", "sy", .normal⟩],
         [⟨"u", "alice", none, 0⟩]⟩ "u" ["y1", "y2"] 2).2.cards
      = [⟨"x1", "u", "sx", .normal⟩, ⟨"y3", "u", "sy", .normal⟩] := by
  constructor
  · rfl
  · have h := (tradeInDuplicates_spec
      ⟨[⟨"x1", "u", "sx", .normal⟩, ⟨"y1", "u", "sy", .normal⟩,
        ⟨"y2", "u", "sy", .normal⟩, ⟨"y3", "u", "sy", .normal⟩],
       [⟨"u", "alice", none, 0⟩]⟩ "u" ["y1", "y2"] 2).2.2.2.2 rfl
    rw [h.1]
    decide

theorem sqlUpdate_map_key {α : Type} (key : α → String) (p : α → Bool)
    (f : α → α) (hf : ∀ a, key (f a) = key a) (l : List α) :
    (sqlUpdate p f l).map key = l.map key := by
  simp only [sqlUpdate, List.map_map]
  refine List.map_congr_left fun a _ => ?_
  by_cases h : p a = true
  · simp [h, hf]
  · simp [Bool.eq_false_iff.mpr h]

theorem key_eq_of_nodup {α : Type} (key : α → String) (l : List α)
    (h : (l.map key).Nodup) (a b : α) (ha : a ∈ l) (hb : b ∈ l)
    (hk : key a = key b) : a = b := by
  have h1 := find?_key_of_nodup key l h a ha
  have h2 := find?_key_of_nodup key l h b hb
  simp only [← hk] at h2
  rw [h1] at h2
  exact Option.some.inj h2

/-- The four terminal / lifecycle states of a trade offer. -/
inductive TradeStatus where
  | pending
  | accepted
  | rejected
  | cancelled
deriving DecidableEq, Repr

/-- One row of the `trade_offers` table. -/
structure TradeRow where
  id : String
  fromUserId : String
  toUserId : String
  status : TradeStatus
deriving DecidableEq, Repr

/-- One row of the `trade_offer_cards` linkage table. -/
structure TradeCardRow where
  id : String
  tradeOfferId : String
  ownedCardId : String
  isOffered : Bool
deriving DecidableEq, Repr

structure TradeState where
  cards : List CardRow
  trades : List TradeRow
  tradeCards : List TradeCardRow
deriving DecidableEq, Repr

/-- The distinct throws of `acceptTradeOffer`
(src/src/services/trades.ts lines 150-234), in source order. -/
inductive TradeError where
  | notPending
  | notRecipient
  | cardMissing
  | ownershipChanged
deriving DecidableEq, Repr

/-- The current owner recorded for a card id
(`SELECT discord_user_id FROM owned_cards WHERE id = ?`). -/
def cardOwner (cards : List CardRow) (cid : String) : Option String :=
  (cards.find? fun c => c.id = cid).map CardRow.discordUserId

/-- The linkage rows of one trade
(`SELECT owned_card_id, is_offered FROM trade_offer_cards
  WHERE trade_offer_id = ?`). -/
def tradeLinks (s : TradeState) (tid : String) : List TradeCardRow :=
  s.tradeCards.filter fun l => l.tradeOfferId = tid

/-- The owner an offered / requested card must still have for the trade to
be valid: `row.is_offered ? trade.from_user_id : trade.to_user_id`. -/
def expectedOwner (trade : TradeRow) (l : TradeCardRow) : String :=
  if l.isOffered then trade.fromUserId else trade.toUserId

/-- The owner a card is reassigned to on acceptance:
`row.is_offered ? trade.to_user_id : trade.from_user_id`. -/
def newOwner (trade : TradeRow) (l : TradeCardRow) : String :=
  if l.isOffered then trade.toUserId else trade.fromUserId

/-- The re-verification loop of `acceptTradeOffer` (lines 182-196): each
linked card must still exist and still belong to its recorded side. -/
def verifyTradeCards (cards : List CardRow) (trade : TradeRow) :
    List TradeCardRow → Option TradeError
  | [] => none
  | l :: rest =>
    match cards.find? fun c => c.id = l.ownedCardId with
    | none => some .cardMissing
    | some card =>
      if card.discordUserId ≠ expectedOwner trade l then
        some .ownershipChanged
      else verifyTradeCards cards trade rest

/-- The ownership-swap loop of `acceptTradeOffer` (lines 199-205): one
`UPDATE owned_cards SET discord_user_id = ? WHERE id = ?` per linked
card. -/
def swapOwners (trade : TradeRow) :
    List TradeCardRow → List CardRow → List CardRow
  | [], cards => cards
  | l :: rest, cards =>
    swapOwners trade rest
      (sqlUpdate (fun c => c.id = l.ownedCardId)
        (fun c => { c with discordUserId := newOwner trade l }) cards)

/-- Whether another trade row references one of the moved cards — the
subquery of the cascade UPDATE (lines 216-223). -/
def referencesMoved (s : TradeState) (tid : String) (t : TradeRow) : Bool :=
  s.tradeCards.any fun l => l.tradeOfferId = t.id ∧
    l.ownedCardId ∈ (tradeLinks s tid).map TradeCardRow.ownedCardId

/-- Embedding of `acceptTradeOffer` (src/src/services/trades.ts lines
150-234): locked fetch of the pending trade, recipient check, per-card
re-verification, ownership swap, status flip to accepted, and the cascade
`UPDATE trade_offers SET status = 'cancelled' WHERE id != ? AND
status = 'pending' AND id IN (SELECT trade_offer_id FROM trade_offer_cards
WHERE owned_card_id IN (?))` — one transaction, so every error outcome
carries the unchanged state. -/
def acceptTradeOffer (s : TradeState) (tid acceptor : String) :
    Except TradeError Unit × TradeState :=
  match s.trades.find? fun t => t.id = tid ∧ t.status = .pending with
  | none => (.error .notPending, s)
  | some trade =>
    if trade.toUserId ≠ acceptor then (.error .notRecipient, s)
    else
      match verifyTradeCards s.cards trade (tradeLinks s tid) with
      | some e => (.error e, s)
      | none =>
        let cards2 := swapOwners trade (tradeLinks s tid) s.cards
        let trades1 := sqlUpdate (fun t => t.id = tid)
          (fun t => { t with status := .accepted }) s.trades
        let trades2 := sqlUpdate
          (fun t => t.id ≠ tid ∧ t.status = .pending ∧ referencesMoved s tid t)
          (fun t => { t with status := .cancelled }) trades1
        (.ok (), { cards := cards2, trades := trades2,
                   tradeCards := s.tradeCards })

/-- The status recorded for a trade id. -/
def tradeStatus (s : TradeState) (tid : String) : Option TradeStatus :=
  (s.trades.find? fun t => t.id = tid).map TradeRow.status

theorem cardOwner_setOwner (cards : List CardRow) (cid o : String) :
    cardOwner (sqlUpdate (fun c => c.id = cid)
        (fun c => { c with discordUserId := o }) cards) cid
      = (cardOwner cards cid).map fun _ => o := by
  unfold cardOwner
  rw [find?_sqlUpdate_pos _ _ (fun a ha => by simpa using ha)]
  cases cards.find? fun c => c.id = cid <;> rfl

theorem cardOwner_setOwner_other (cards : List CardRow) (cid cid2 o : String)
    (hne : cid2 ≠ cid) :
    cardOwner (sqlUpdate (fun c => c.id = cid)
        (fun c => { c with discordUserId := o }) cards) cid2
      = cardOwner cards cid2 := by
  have h := find?_sqlUpdate_disjoint (fun c => decide (c.id = cid))
    (fun c => decide (c.id = cid2))
    (fun c => { c with discordUserId := o })
    (fun a => by simp)
    (fun a ha => by
      simp only [decide_eq_true_eq] at ha
      simp [ha, hne]) cards
  unfold cardOwner
  rw [h]

theorem swapOwners_not_moved (trade : TradeRow) (links : List TradeCardRow) :
    ∀ (cards : List CardRow) (cid : String),
      cid ∉ links.map TradeCardRow.ownedCardId →
      cardOwner (swapOwners trade links cards) cid = cardOwner cards cid := by
  induction links with
  | nil => intro cards cid _; rfl
  | cons l rest ih =>
    intro cards cid hcid
    simp only [List.map_cons, List.mem_cons, not_or] at hcid
    simp only [swapOwners]
    rw [ih _ cid hcid.2]
    exact cardOwner_setOwner_other cards l.ownedCardId cid
      (newOwner trade l) hcid.1

theorem swapOwners_moved (trade : TradeRow) (links : List TradeCardRow)
    (hnd : (links.map TradeCardRow.ownedCardId).Nodup) :
    ∀ (cards : List CardRow), ∀ l ∈ links,
      cardOwner (swapOwners trade links cards) l.ownedCardId
        = (cardOwner cards l.ownedCardId).map fun _ => newOwner trade l := by
  induction links with
  | nil => intro cards l hl; cases hl
  | cons l0 rest ih =>
    simp only [List.map_cons, List.nodup_cons] at hnd
    intro cards l hl
    rcases List.mem_cons.mp hl with rfl | hmem
    · simp only [swapOwners]
      rw [swapOwners_not_moved trade rest _ l.ownedCardId hnd.1]
      exact cardOwner_setOwner cards l.ownedCardId (newOwner trade l)
    · have hne : l.ownedCardId ≠ l0.ownedCardId := by
        intro he
        exact hnd.1 (he ▸ List.mem_map_of_mem TradeCardRow.ownedCardId hmem)
      simp only [swapOwners]
      rw [ih hnd.2 _ l hmem]
      rw [cardOwner_setOwner_other cards l0.ownedCardId l.ownedCardId
        (newOwner trade l0) hne]

theorem verify_none_iff (cards : List CardRow) (trade : TradeRow)
    (links : List TradeCardRow) :
    verifyTradeCards cards trade links = none ↔
      ∀ l ∈ links, cardOwner cards l.ownedCardId
        = some (expectedOwner trade l) := by
  induction links with
  | nil => simp [verifyTradeCards]
  | cons l rest ih =>
    cases hfind : cards.find? fun c => c.id = l.ownedCardId with
    | none =>
      simp only [verifyTradeCards, hfind]
      constructor
      · intro h; cases h
      · intro h
        have := h l (List.mem_cons_self l rest)
        rw [cardOwner, hfind] at this
        cases this
    | some card =>
      by_cases hown : card.discordUserId = expectedOwner trade l
      · simp only [verifyTradeCards, hfind]
        rw [if_neg (not_not_intro hown), ih]
        constructor
        · intro h l2 hl2
          rcases List.mem_cons.mp hl2 with rfl | hmem
          · rw [cardOwner, hfind]
            simp [hown]
          · exact h l2 hmem
        · intro h l2 hmem
          exact h l2 (List.mem_cons_of_mem _ hmem)
      · simp only [verifyTradeCards, hfind]
        rw [if_pos hown]
        constructor
        · intro h; cases h
        · intro h
          have := h l (List.mem_cons_self l rest)
          rw [cardOwner, hfind] at this
          exact absurd (by simpa using this) hown

theorem verify_stale (cards : List CardRow) (trade : TradeRow)
    (links : List TradeCardRow)
    (hall : ∀ l ∈ links, (cards.find? fun c => c.id = l.ownedCardId).isSome)
    (hex : ∃ l ∈ links,
      cardOwner cards l.ownedCardId ≠ some (expectedOwner trade l)) :
    verifyTradeCards cards trade links = some .ownershipChanged := by
  induction links with
  | nil => obtain ⟨l, hl, _⟩ := hex; cases hl
  | cons l rest ih =>
    obtain ⟨card, hcard⟩ := Option.isSome_iff_exists.mp
      (hall l (List.mem_cons_self l rest))
    by_cases hown : card.discordUserId = expectedOwner trade l
    · simp only [verifyTradeCards, hcard]
      rw [if_neg (not_not_intro hown)]
      refine ih (fun l2 hl2 => hall l2 (List.mem_cons_of_mem _ hl2)) ?_
      obtain ⟨l2, hl2, hne⟩ := hex
      rcases List.mem_cons.mp hl2 with rfl | hmem
      · exfalso
        apply hne
        rw [cardOwner, hcard]
        simp [hown]
      · exact ⟨l2, hmem, hne⟩
    · simp only [verifyTradeCards, hcard]
      rw [if_pos hown]

theorem accept_eq_notPending (s : TradeState) (tid acceptor : String)
    (hfind : s.trades.find? (fun t => t.id = tid ∧ t.status = .pending)
      = none) :
    acceptTradeOffer s tid acceptor = (.error .notPending, s) := by
  simp only [acceptTradeOffer]
  rw [hfind]

theorem accept_eq_notRecipient (s : TradeState) (tid acceptor : String)
    (trade : TradeRow)
    (hfind : s.trades.find? (fun t => t.id = tid ∧ t.status = .pending)
      = some trade)
    (hrec : trade.toUserId ≠ acceptor) :
    acceptTradeOffer s tid acceptor = (.error .notRecipient, s) := by
  simp only [acceptTradeOffer, hfind]
  rw [if_pos hrec]

theorem accept_eq_verifyErr (s : TradeState) (tid acceptor : String)
    (trade : TradeRow) (e : TradeError)
    (hfind : s.trades.find? (fun t => t.id = tid ∧ t.status = .pending)
      = some trade)
    (hrec : trade.toUserId = acceptor)
    (hv : verifyTradeCards s.cards trade (tradeLinks s tid) = some e) :
    acceptTradeOffer s tid acceptor = (.error e, s) := by
  simp only [acceptTradeOffer, hfind]
  rw [if_neg (not_not_intro hrec)]
  simp [hv]

theorem accept_eq_ok (s : TradeState) (tid acceptor : String)
    (trade : TradeRow)
    (hfind : s.trades.find? (fun t => t.id = tid ∧ t.status = .pending)
      = some trade)
    (hrec : trade.toUserId = acceptor)
    (hv : verifyTradeCards s.cards trade (tradeLinks s tid) = none) :
    acceptTradeOffer s tid acceptor
      = (.ok (),
         { cards := swapOwners trade (tradeLinks s tid) s.cards,
           trades := sqlUpdate
             (fun t => t.id ≠ tid ∧ t.status = .pending
               ∧ referencesMoved s tid t)
             (fun t => { t with status := .cancelled })
             (sqlUpdate (fun t => t.id = tid)
               (fun t => { t with status := .accepted }) s.trades),
           tradeCards := s.tradeCards }) := by
  simp only [acceptTradeOffer, hfind]
  rw [if_neg (not_not_intro hrec)]
  simp [hv]

theorem find?_pending_none (trades : List TradeRow) (tid : String)
    (hnd : (trades.map TradeRow.id).Nodup) (row : TradeRow)
    (hrow : trades.find? (fun x => x.id = tid) = some row)
    (hst : row.status ≠ .pending) :
    trades.find? (fun x => x.id = tid ∧ x.status = .pending) = none := by
  rw [List.find?_eq_none]
  intro x hx
  simp only [decide_eq_true_eq]
  rintro ⟨hid, hpend⟩
  have hrowid : row.id = tid := by
    have := List.find?_some hrow
    simpa using this
  have hrmem := List.mem_of_find?_eq_some hrow
  have hxr : x = row :=
    key_eq_of_nodup TradeRow.id trades hnd x row hx hrmem
      (by rw [hid, hrowid])
  rw [hxr] at hpend
  exact hst hpend

/-- Counterexample state for C3: card c1 (owner u1) and c2 (owner u2);
trade t1 offers c1 for c2 between u1 and u2; trade t2 also offers c1 from
u1 to u3. -/
def cascadeExample : TradeState :=
  { cards := [⟨"c1", "u1", "s1", .normal⟩, ⟨"c2", "u2", "s2", .normal⟩],
    trades := [⟨"t1", "u1", "u2", .pending⟩, ⟨"t2", "u1", "u3", .pending⟩],
    tradeCards := [⟨"l1", "t1", "c1", true⟩, ⟨"l2", "t1", "c2", false⟩,
                   ⟨"l3", "t2", "c1", true⟩] }

/-- Counterexample for C3 as stated: accepting t1 cascades t2 to cancelled,
but a subsequent accept of t2 then fails with the not-found-or-not-pending
error, not with the distinct ownership-changed/staleness error the claim
names. -/
theorem acceptTradeOffer_cascade_error_counterexample :
    (acceptTradeOffer cascadeExample "t1" "u2").1 = .ok () ∧
    tradeStatus (acceptTradeOffer cascadeExample "t1" "u2").2 "t2"
      = some .cancelled ∧
    acceptTradeOffer (acceptTradeOffer cascadeExample "t1" "u2").2 "t2" "u3"
      = (.error .notPending, (acceptTradeOffer cascadeExample "t1" "u2").2) ∧
    TradeError.notPending ≠ TradeError.ownershipChanged := by
  exact ⟨rfl, rfl, rfl, by decide⟩

/-- Claim C3 (amended): a successful accept reassigns every offered card to
the counterparty and every requested card to the proposer, marks the trade
accepted, and cancels every other still-pending offer referencing a moved
card (either role), all in one transaction; every failure leaves the state
unchanged, a missing-or-stale pending trade yields `notPending`, a pending
trade one of whose referenced cards changed owner yields the distinct
`ownershipChanged` error, and a subsequent accept of a cascade-cancelled
offer fails with `notPending` (not the staleness error), changing
nothing. -/
theorem acceptTradeOffer_spec (s : TradeState) (tid acceptor : String)
    (htrades : (s.trades.map TradeRow.id).Nodup)
    (hlinks : ((tradeLinks s tid).map TradeCardRow.ownedCardId).Nodup) :
    (s.trades.find? (fun t => t.id = tid ∧ t.status = .pending) = none →
       acceptTradeOffer s tid acceptor = (.error .notPending, s)) ∧
    (∀ e, (acceptTradeOffer s tid acceptor).1 = .error e →
       (acceptTradeOffer s tid acceptor).2 = s) ∧
    (∀ trade,
       s.trades.find? (fun t => t.id = tid ∧ t.status = .pending)
         = some trade →
       (trade.toUserId ≠ acceptor →
          acceptTradeOffer s tid acceptor = (.error .notRecipient, s)) ∧
       (trade.toUserId = acceptor →
        (∀ l ∈ tradeLinks s tid,
          (s.cards.find? fun c => c.id = l.ownedCardId).isSome) →
        (∃ l ∈ tradeLinks s tid,
          cardOwner s.cards l.ownedCardId ≠ some (expectedOwner trade l)) →
          acceptTradeOffer s tid acceptor = (.error .ownershipChanged, s)) ∧
       (trade.toUserId = acceptor →
        (∀ l ∈ tradeLinks s tid,
          cardOwner s.cards l.ownedCardId = some (expectedOwner trade l)) →
        (acceptTradeOffer s tid acceptor).1 = .ok () ∧
        (∀ l ∈ tradeLinks s tid,
          cardOwner (acceptTradeOffer s tid acceptor).2.cards l.ownedCardId
            = some (newOwner trade l)) ∧
        (∀ cid, cid ∉ (tradeLinks s tid).map TradeCardRow.ownedCardId →
          cardOwner (acceptTradeOffer s tid acceptor).2.cards cid
            = cardOwner s.cards cid) ∧
        tradeStatus (acceptTradeOffer s tid acceptor).2 tid
          = some .accepted ∧
        (∀ t ∈ s.trades, t.id ≠ tid → t.status = .pending →
          referencesMoved s tid t = true →
          tradeStatus (acceptTradeOffer s tid acceptor).2 t.id
            = some .cancelled) ∧
        (∀ t ∈ s.trades, t.id ≠ tid →
          (referencesMoved s tid t = false ∨ t.status ≠ .pending) →
          tradeStatus (acceptTradeOffer s tid acceptor).2 t.id
            = some t.status) ∧
        (∀ t ∈ s.trades, t.id ≠ tid → t.status = .pending →
          referencesMoved s tid t = true → ∀ uid2,
          acceptTradeOffer (acceptTradeOffer s tid acceptor).2 t.id uid2
            = (.error .notPending, (acceptTradeOffer s tid acceptor).2)))) := by
  refine ⟨accept_eq_notPending s tid acceptor, ?_, ?_⟩
  · intro e he
    cases hfind : s.trades.find? fun t => t.id = tid ∧ t.status = .pending with
    | none => rw [accept_eq_notPending s tid acceptor hfind]
    | some trade =>
      by_cases hrec : trade.toUserId = acceptor
      · cases hv : verifyTradeCards s.cards trade (tradeLinks s tid) with
        | none =>
          rw [accept_eq_ok s tid acceptor trade hfind hrec hv] at he
          cases he
        | some e2 =>
          rw [accept_eq_verifyErr s tid acceptor trade e2 hfind hrec hv]
      · rw [accept_eq_notRecipient s tid acceptor trade hfind hrec]
  · intro trade hfind
    have hmem := List.mem_of_find?_eq_some hfind
    have hp : trade.id = tid ∧ trade.status = .pending := by
      have := List.find?_some hfind
      simpa using this
    refine ⟨accept_eq_notRecipient s tid acceptor trade hfind, ?_, ?_⟩
    · intro hrec hall hex
      exact accept_eq_verifyErr s tid acceptor trade .ownershipChanged hfind
        hrec (verify_stale s.cards trade (tradeLinks s tid) hall hex)
    · intro hrec hvalid
      have hv : verifyTradeCards s.cards trade (tradeLinks s tid) = none :=
        (verify_none_iff s.cards trade (tradeLinks s tid)).mpr hvalid
      have hok := accept_eq_ok s tid acceptor trade hfind hrec hv
      have hfid : s.trades.find? (fun x => decide (x.id = tid))
          = some trade := by
        have h := find?_key_of_nodup TradeRow.id s.trades htrades trade hmem
        simpa only [hp.1] using h
      have hcards2 : (acceptTradeOffer s tid acceptor).2.cards
          = swapOwners trade (tradeLinks s tid) s.cards := by
        rw [hok]
      have htrades2 : (acceptTradeOffer s tid acceptor).2.trades
          = sqlUpdate
              (fun t => t.id ≠ tid ∧ t.status = .pending
                ∧ referencesMoved s tid t)
              (fun t => { t with status := .cancelled })
              (sqlUpdate (fun t => t.id = tid)
                (fun t => { t with status := .accepted }) s.trades) := by
        rw [hok]
      have hstep1 : ∀ qid : String,
          ((sqlUpdate (fun t => decide (t.id = tid))
              (fun t => { t with status := TradeStatus.accepted })
              s.trades).find? fun x => decide (x.id = qid))
            = (s.trades.find? fun x => decide (x.id = qid)).map
                (fun a => if decide (a.id = tid) = true then
                  { a with status := TradeStatus.accepted } else a) := by
        intro qid
        exact find?_sqlUpdate _ _ _ (fun a => by simp) s.trades
      have hstep2 : ∀ qid : String,
          ((acceptTradeOffer s tid acceptor).2.trades.find?
              fun x => decide (x.id = qid))
            = ((sqlUpdate (fun t => decide (t.id = tid))
                (fun t => { t with status := TradeStatus.accepted })
                s.trades).find? fun x => decide (x.id = qid)).map
                (fun a => if decide (a.id ≠ tid ∧ a.status = .pending
                    ∧ referencesMoved s tid a) = true then
                  { a with status := TradeStatus.cancelled } else a) := by
        intro qid
        rw [htrades2]
        exact find?_sqlUpdate _ _ _ (fun a => by simp) _
      refine ⟨by rw [hok], ?_, ?_, ?_, ?_, ?_, ?_⟩
      · intro l hl
        rw [hcards2, swapOwners_moved trade (tradeLinks s tid) hlinks
          s.cards l hl, hvalid l hl]
        rfl
      · intro cid hcid
        rw [hcards2, swapOwners_not_moved trade (tradeLinks s tid)
          s.cards cid hcid]
      · rw [tradeStatus, hstep2 tid, hstep1 tid, hfid]
        simp [hp.1]
      · intro t ht htne htpend hrefs
        have hft : s.trades.find? (fun x => decide (x.id = t.id))
            = some t := find?_key_of_nodup TradeRow.id s.trades htrades t ht
        rw [tradeStatus, hstep2 t.id, hstep1 t.id, hft]
        simp [htne, htpend, hrefs]
      · intro t ht htne hside
        have hft : s.trades.find? (fun x => decide (x.id = t.id))
            = some t := find?_key_of_nodup TradeRow.id s.trades htrades t ht
        rw [tradeStatus, hstep2 t.id, hstep1 t.id, hft]
        rcases hside with hrefs | hpend
        · simp [htne, hrefs]
        · simp [htne, hpend]
      · intro t ht htne htpend hrefs uid2
        have hft : s.trades.find? (fun x => decide (x.id = t.id))
            = some t := find?_key_of_nodup TradeRow.id s.trades htrades t ht
        have hrowfind : ((acceptTradeOffer s tid acceptor).2.trades.find?
            fun x => decide (x.id = t.id))
            = some { t with status := TradeStatus.cancelled } := by
          rw [hstep2 t.id, hstep1 t.id, hft]
          simp [htne, htpend, hrefs]
        have hnd2 : ((acceptTradeOffer s tid acceptor).2.trades.map
            TradeRow.id).Nodup := by
          rw [htrades2,
            sqlUpdate_map_key TradeRow.id _
              (fun t => { t with status := TradeStatus.cancelled })
              (fun a => rfl),
            sqlUpdate_map_key TradeRow.id _
              (fun t => { t with status := TradeStatus.accepted })
              (fun a => rfl)]
          exact htrades
        have hnone := find?_pending_none
          (acceptTradeOffer s tid acceptor).2.trades t.id hnd2
          { t with status := TradeStatus.cancelled } hrowfind (by simp)
        exact accept_eq_notPending (acceptTradeOffer s tid acceptor).2
          t.id uid2 hnone

/-- Witness for the amended C3 on the concrete cascade state: accepting t1
as u2 succeeds, moves c1 to u2 and c2 to u1, marks t1 accepted and cancels
the pending trade t2 that also references c1. -/
theorem acceptTradeOffer_spec_witness :
    (acceptTradeOffer cascadeExample "t1" "u2").1 = .ok () ∧
    cardOwner (acceptTradeOffer cascadeExample "t1" "u2").2.cards "c1"
      = some "u2" ∧
    cardOwner (acceptTradeOffer cascadeExample "t1" "u2").2.cards "c2"
      = some "u1" ∧
    tradeStatus (acceptTradeOffer cascadeExample "t1" "u2").2 "t1"
      = some .accepted ∧
    tradeStatus (acceptTradeOffer cascadeExample "t1" "u2").2 "t2"
      = some .cancelled := by
  have h := (acceptTradeOffer_spec cascadeExample "t1" "u2" (by decide)
    (by decide)).2.2 ⟨"t1", "u1", "u2", .pending⟩ (by decide)
  have hs := h.2.2 rfl (by decide)
  refine ⟨hs.1, ?_, ?_, hs.2.2.2.1, ?_⟩
  · have := hs.2.1 ⟨"l1", "t1", "c1", true⟩ (by decide)
    simpa [newOwner] using this
  · have := hs.2.1 ⟨"l2", "t1", "c2", false⟩ (by decide)
    simpa [newOwner] using this
  · exact hs.2.2.2.2.1 ⟨"t2", "u1", "u3", .pending⟩ (by decide) (by decide)
      (by decide) (by decide)

/-- The issuance-side tables touched by `openPack`: card templates and
owned-card instances (the `pack_opens` log row of the other source copy is
not part of the cited function). -/
structure PackState where
  snapshots : List SnapshotRow
  ownedCards : List CardRow
deriving DecidableEq, Repr

/-- The eligibility predicate of `openPack` (and the stated provider
contract): `p.stats && p.stats.gameCount > 0`. -/
def eligiblePlayer (p : Player) : Bool :=
  match p.stats with
  | some stats => 0 < stats.gameCount
  | none => false

/-- The per-draw loop of `openPack` (src/unnamed/part_009 lines 1183-1215):
pick the drawn eligible player, roll a rarity, resolve-or-create the
snapshot on the shared transaction, insert the owned card, and push the
snapshot onto `newSnapshots` iff
`new Date(snapshot.createdAt).getTime() > Date.now() - 1000` — the
source's timestamp heuristic.  `draws` carries one
(player-index, rarity-draw) oracle pair per iteration; generated uuids are
index-derived.  The `none` outcome is a thrown insert error, which
`openPack` turns into a rollback. -/
def openPackLoop (uid : String) (season : Int) (st : StatType)
    (eligible : List Player) (p0 : Player) (now : Int) :
    List (Nat × Rat) → Nat → PackState → List CardRow → List SnapshotRow →
    Option (PackState × List CardRow × List SnapshotRow)
  | [], _, ps, cardsAcc, newAcc => some (ps, cardsAcc, newAcc)
  | (pidx, rdraw) :: rest, i, ps, cardsAcc, newAcc =>
    let player := eligible.getD (pidx % eligible.length) p0
    let rarity := rollRarity rdraw
    match findOrCreateSnapshot ps.snapshots player season st
        (String.append "snap" (toString i)) now with
    | none => none
    | some (snapshot, snaps2) =>
      let cardId := String.append "card" (toString i)
      let card : CardRow := ⟨cardId, uid, snapshot.id, rarity⟩
      openPackLoop uid season st eligible p0 now rest (i + 1)
        ⟨snaps2, ps.ownedCards ++ [card]⟩ (cardsAcc ++ [card])
        (if now - 1000 < snapshot.createdAt then newAcc ++ [snapshot]
         else newAcc)

/-- Embedding of `openPack` (src/unnamed/part_009 lines 1161-1225): filter
the provider pool to eligible players, fail hard when it is empty, then run
all draws in one transaction; any thrown error rolls the whole pack back
(the error outcomes carry the unchanged state). -/
def openPack (players : List Player) (season : Int) (st : StatType)
    (s : PackState) (uid : String) (draws : List (Nat × Rat)) (now : Int) :
    Except String (List CardRow × List SnapshotRow) × PackState :=
  match players.filter eligiblePlayer with
  | [] => (.error "No eligible players available", s)
  | p0 :: es =>
    match openPackLoop uid season st (p0 :: es) p0 now draws 0 s [] [] with
    | none => (.error "Failed to open pack", s)
    | some (s2, cards, newSnaps) => (.ok (cards, newSnaps), s2)

theorem findOrCreateSnapshot_cases (snapshots : List SnapshotRow)
    (player : Player) (season : Int) (st : StatType) (fid : String)
    (now : Int) (r : SnapshotRow) (snaps2 : List SnapshotRow)
    (h : findOrCreateSnapshot snapshots player season st fid now
      = some (r, snaps2)) :
    snaps2 = snapshots ∨ (snaps2 = snapshots ++ [r] ∧ r.createdAt = now) := by
  cases hfind : snapshots.find?
      (snapKey player.id season st player.avatarUrl) with
  | some row =>
    simp only [findOrCreateSnapshot, hfind, Option.some.injEq,
      Prod.mk.injEq] at h
    exact Or.inl h.2.symm
  | none =>
    cases hstats : player.stats with
    | none => simp [findOrCreateSnapshot, hfind, hstats] at h
    | some stats =>
      simp only [findOrCreateSnapshot, hfind, hstats, Option.some.injEq,
        Prod.mk.injEq] at h
      refine Or.inr ⟨?_, ?_⟩
      · rw [← h.1, ← h.2]
      · rw [← h.1]

theorem openPackLoop_inv (uid : String) (season : Int) (st : StatType)
    (eligible : List Player) (p0 : Player) (now : Int) :
    ∀ (draws : List (Nat × Rat)) (i : Nat) (ps : PackState)
      (acc : List CardRow) (newAcc : List SnapshotRow)
      (ps2 : PackState) (cards2 : List CardRow) (new2 : List SnapshotRow),
      openPackLoop uid season st eligible p0 now draws i ps acc newAcc
        = some (ps2, cards2, new2) →
      (∀ snap ∈ newAcc, snap ∈ new2) ∧
      (∀ snap ∈ new2, snap ∈ newAcc ∨ now - 1000 < snap.createdAt) ∧
      (∀ snap ∈ ps2.snapshots, snap ∈ ps.snapshots ∨ snap ∈ new2) := by
  intro draws
  induction draws with
  | nil =>
    intro i ps acc newAcc ps2 cards2 new2 h
    simp only [openPackLoop, Option.some.injEq, Prod.mk.injEq] at h
    obtain ⟨h1, _, h3⟩ := h
    rw [← h1, ← h3]
    exact ⟨fun snap hs => hs, fun snap hs => Or.inl hs,
      fun snap hs => Or.inl hs⟩
  | cons d rest ih =>
    intro i ps acc newAcc ps2 cards2 new2 h
    obtain ⟨pidx, rdraw⟩ := d
    simp only [openPackLoop] at h
    cases hres : findOrCreateSnapshot ps.snapshots
        (eligible.getD (pidx % eligible.length) p0) season st
        (String.append "snap" (toString i)) now with
    | none => rw [hres] at h; cases h
    | some pr =>
      obtain ⟨snapshot, snaps2⟩ := pr
      rw [hres] at h
      simp only at h
      obtain ⟨m1, m2, m3⟩ := ih (i + 1)
        ⟨snaps2, ps.ownedCards ++ [⟨String.append "card" (toString i), uid,
          snapshot.id, rollRarity rdraw⟩]⟩
        (acc ++ [⟨String.append "card" (toString i), uid, snapshot.id,
          rollRarity rdraw⟩])
        (if now - 1000 < snapshot.createdAt then newAcc ++ [snapshot]
         else newAcc) ps2 cards2 new2 h
      have hsub : ∀ snap ∈ newAcc, snap ∈ new2 := by
        intro snap hs
        apply m1
        by_cases hc : now - 1000 < snapshot.createdAt <;>
          simp [hc, hs]
      refine ⟨hsub, ?_, ?_⟩
      · intro snap hs
        rcases m2 snap hs with hin | hlate
        · by_cases hc : now - 1000 < snapshot.createdAt
          · rw [if_pos hc] at hin
            rcases List.mem_append.mp hin with hin2 | hin2
            · exact Or.inl hin2
            · simp only [List.mem_singleton] at hin2
              exact Or.inr (hin2 ▸ hc)
          · rw [if_neg hc] at hin
            exact Or.inl hin
        · exact Or.inr hlate
      · intro snap hs
        rcases m3 snap hs with hin | hin2
        · rcases findOrCreateSnapshot_cases ps.snapshots _ season st _ now
            snapshot snaps2 hres with hcase | hcase
          · rw [hcase] at hin
            exact Or.inl hin
          · rw [hcase.1] at hin
            rcases List.mem_append.mp hin with h1 | h1
            · exact Or.inl h1
            · simp only [List.mem_singleton] at h1
              subst h1
              refine Or.inr (m1 snap ?_)
              have hc : now - 1000 < snap.createdAt := by
                rw [hcase.2]; omega
              simp [hc]
        · exact Or.inr hin2

/-- A snapshot row created 500ms before the example call time 10000. -/
def preexistingSnap : SnapshotRow :=
  ⟨"s0", "p1", "n", "a", 17, .Regulation, "t", none, none, none, none,
   1, 1, 1, 1, 1, 3, 9, 8, 7, 9500⟩

/-- The provider player whose natural key matches `preexistingSnap`. -/
def heuristicPlayer : Player :=
  ⟨"p1", "n", "a", "t", none, none, none, none, some ⟨1, 1, 1, 1, 1, 3, 9, 8, 7⟩⟩

/-- Counterexample for C6 as stated: drawing a card whose snapshot already
existed (created 500ms before the call) creates nothing — the table is
unchanged — yet the pre-existing snapshot is reported in `newSnapshots`,
because membership is decided by the `createdAt > now - 1000` timestamp
test, not by the call's own creation outcome. -/
theorem openPack_newSnapshots_counterexample :
    (openPack [heuristicPlayer] 17 .Regulation ⟨[preexistingSnap], []⟩ "u"
        [(0, 3)] 10000).1
      = .ok ([⟨"card0", "u", "s0", rollRarity 3⟩], [preexistingSnap]) ∧
    (openPack [heuristicPlayer] 17 .Regulation ⟨[preexistingSnap], []⟩ "u"
        [(0, 3)] 10000).2.snapshots = [preexistingSnap] ∧
    preexistingSnap ∈ ([preexistingSnap] : List SnapshotRow) := by
  exact ⟨rfl, rfl, List.mem_singleton.mpr rfl⟩

/-- Claim C6 (amended): `newSnapshots` membership is decided by the
timestamp heuristic `snapshot.createdAt > now - 1000`: every reported
snapshot carries a createdAt within 1000ms before the call's clock — in
particular every snapshot this call created (stamped `createdAt = now`) is
always reported — but the heuristic does not consult the call's own
creation outcome, so a pre-existing snapshot created less than one second
before the call is wrongly reported as new. -/
theorem openPack_newSnapshots_spec (players : List Player) (season : Int)
    (st : StatType) (s : PackState) (uid : String)
    (draws : List (Nat × Rat)) (now : Int) :
    ∀ cards newSnaps,
      (openPack players season st s uid draws now).1
        = .ok (cards, newSnaps) →
      (∀ snap ∈ newSnaps, now - 1000 < snap.createdAt) ∧
      (∀ snap ∈ (openPack players season st s uid draws now).2.snapshots,
        snap ∉ s.snapshots → snap ∈ newSnaps) := by
  intro cards newSnaps hok
  cases hel : players.filter eligiblePlayer with
  | nil =>
    rw [show openPack players season st s uid draws now
        = (.error "No eligible players available", s) by
      simp [openPack, hel]] at hok ⊢
    cases hok
  | cons p0 es =>
    cases hloop : openPackLoop uid season st (p0 :: es) p0 now draws 0
        s [] [] with
    | none =>
      rw [show openPack players season st s uid draws now
          = (.error "Failed to open pack", s) by
        simp [openPack, hel, hloop]] at hok ⊢
      cases hok
    | some res =>
      obtain ⟨s2, cards2, new2⟩ := res
      have heq : openPack players season st s uid draws now
          = (.ok (cards2, new2), s2) := by
        simp [openPack, hel, hloop]
      rw [heq] at hok ⊢
      simp only [Except.ok.injEq, Prod.mk.injEq] at hok
      obtain ⟨m1, m2, m3⟩ := openPackLoop_inv uid season st (p0 :: es) p0
        now draws 0 s [] [] s2 cards2 new2 hloop
      constructor
      · intro snap hs
        rw [← hok.2] at hs
        rcases m2 snap hs with hin | hlate
        · cases hin
        · exact hlate
      · intro snap hs hnot
        rcases m3 snap hs with hin | hin
        · exact absurd hin hnot
        · rw [← hok.2]
          exact hin

/-- Witness for the amended C6 at the counterexample input: the reported
snapshot indeed has createdAt within 1000ms of the call time. -/
theorem openPack_newSnapshots_spec_witness :
    (10000 : Int) - 1000 < preexistingSnap.createdAt := by
  have h := openPack_newSnapshots_spec [heuristicPlayer] 17 .Regulation
    ⟨[preexistingSnap], []⟩ "u" [(0, 3)] 10000
    [⟨"card0", "u", "s0", rollRarity 3⟩] [preexistingSnap] rfl
  exact h.1 preexistingSnap (List.mem_singleton.mpr rfl)

/-- The request-scoped state the /packs/open handler touches. -/
structure ApiState where
  users : List UserRow
  pack : PackState
deriving DecidableEq, Repr

/-- The distinct responses of POST /packs/open
(src/src/routes/packs.ts lines 18-49). -/
inductive OpenResponse where
  | badSize
  | noPacks
  | serverError
  | opened (cards : List CardRow) (newSnapshots : Nat) (packBalance : Int)
deriving DecidableEq, Repr

/-- Embedding of the POST /packs/open handler (src/src/routes/packs.ts
lines 18-49): validate packSize (the number of draws), debit one pack with
`decrementPackBalance`, then call `openPack`; a thrown `openPack` error is
caught and answered as a 500 — with no compensation of the already-applied
debit, which persists because it ran outside openPack's transaction. -/
def openPackRoute (players : List Player) (season : Int) (st : StatType)
    (s : ApiState) (uid : String) (draws : List (Nat × Rat)) (now : Int) :
    OpenResponse × ApiState :=
  if draws.length < 1 ∨ 10 < draws.length then (.badSize, s)
  else
    let deb := decrementPackBalance s.users uid
    if deb.1 = false then (.noPacks, { s with users := deb.2 })
    else
      match openPack players season st s.pack uid draws now with
      | (.error _, pack2) => (.serverError, { users := deb.2, pack := pack2 })
      | (.ok (cards, newSnaps), pack2) =>
        (.opened cards newSnaps.length (getPackBalance deb.2 uid),
         { users := deb.2, pack := pack2 })

/-- Claim C7 evaluated at the failing input: with balance 1 and an empty
eligible pool, the debit succeeds, `openPack` then fails and the handler
answers 500 — but the user's balance is now 0 (the pack is lost) while no
owned card was created, contradicting the claimed zero-effect failure.
The spec's own balance-0 scenario, by contrast, does hold: the debit fails
and the state is unchanged. -/
theorem openPackRoute_side_effecting_failure :
    (openPackRoute [] 17 .Regulation ⟨[⟨"u", "a", none, 1⟩], ⟨[], []⟩⟩ "u"
        [(0, 0)] 0).1 = .serverError ∧
    getPackBalance (openPackRoute [] 17 .Regulation
        ⟨[⟨"u", "a", none, 1⟩], ⟨[], []⟩⟩ "u" [(0, 0)] 0).2.users "u" = 0 ∧
    getPackBalance [(⟨"u", "a", none, 1⟩ : UserRow)] "u" = 1 ∧
    (openPackRoute [] 17 .Regulation ⟨[⟨"u", "a", none, 1⟩], ⟨[], []⟩⟩ "u"
        [(0, 0)] 0).2.pack.ownedCards = [] ∧
    openPackRoute [] 17 .Regulation ⟨[⟨"u", "a", none, 0⟩], ⟨[], []⟩⟩ "u"
        [(0, 0)] 0
      = (.noPacks, ⟨[⟨"u", "a", none, 0⟩], ⟨[], []⟩⟩) := by
  refine ⟨rfl, by decide, by decide, rfl, rfl⟩

end TradingCards
